import Mathlib

/-!
# Verification of the PanzerChasm server map simulation (`server/map.cpp`)

Shallow embedding of the parts of `src/PanzerChasm/server/map.cpp` needed to
settle the frozen claims: the procedure state machine (`Map::Tick` procedure
pass, `Map::ActivateProcedure`, `Map::TryActivateProcedure`,
`Map::ReturnProcedure`, `Map::ProcedureProcessShoot`,
`Map::ProcedureProcessDestroy`, `Map::ActivateProcedureSwitches`), the
nearest-hit resolver (`Map::ProcessShot`), the rocket lifecycle
(`Map::Shoot` and the rocket pass of `Map::Tick`), the mine lifecycle
(the mine pass of `Map::Tick`), the monster-vs-monster collision pass,
and the vertical part of `Map::CollideWithMap`.

Modelling conventions:
* C++ `float` arithmetic is modelled over `ℚ` (exact arithmetic); the claims
  under scrutiny are about the algebraic/branch structure of the code, not
  about rounding.
* `std::sqrt` and vector normalization have no exact rational counterpart;
  functions that need a length take it as an explicit argument `dist`, and
  theorems carry the hypotheses `0 ≤ dist` / `dist * dist = squareDistance`
  that characterize the real square root.  Concrete witnesses use inputs
  whose squared distances are perfect squares.
* Constants from `game_constants.hpp` (which is not part of the sources,
  only used by them) are taken as parameters; theorems assume exactly the
  properties the claims need (e.g. positivity of the procedures speed
  scale).
* The geometry primitives of `collisions.cpp` (`RayIntersectWall`,
  `RayIntersectCylinder`, ...) are likewise external to the sources; the
  nearest-hit resolver is embedded over the list of candidate intersections
  those primitives produce, in the exact scan order of `Map::ProcessShot`.
-/

/-- 2-D vector over `ℚ`, mirroring `m_Vec2`. -/
structure Vec2 where
  x : ℚ
  y : ℚ
  deriving DecidableEq, Repr

/-- 3-D vector over `ℚ`, mirroring `m_Vec3`. -/
structure Vec3 where
  x : ℚ
  y : ℚ
  z : ℚ
  deriving DecidableEq, Repr

namespace Vec2

def add (a b : Vec2) : Vec2 := ⟨a.x + b.x, a.y + b.y⟩

def sub (a b : Vec2) : Vec2 := ⟨a.x - b.x, a.y - b.y⟩

def smul (k : ℚ) (a : Vec2) : Vec2 := ⟨k * a.x, k * a.y⟩

/-- `m_Vec2::SquareLength`. -/
def squareLength (a : Vec2) : ℚ := a.x * a.x + a.y * a.y

instance : Add Vec2 := ⟨add⟩

instance : Sub Vec2 := ⟨sub⟩

instance : HMul ℚ Vec2 Vec2 := ⟨smul⟩

theorem add2_def (a b : Vec2) : a + b = ⟨a.x + b.x, a.y + b.y⟩ := rfl

theorem sub2_def (a b : Vec2) : a - b = ⟨a.x - b.x, a.y - b.y⟩ := rfl

theorem smul2_def (k : ℚ) (a : Vec2) : k * a = ⟨k * a.x, k * a.y⟩ := rfl

end Vec2

namespace Vec3

def add (a b : Vec3) : Vec3 := ⟨a.x + b.x, a.y + b.y, a.z + b.z⟩

def sub (a b : Vec3) : Vec3 := ⟨a.x - b.x, a.y - b.y, a.z - b.z⟩

def smul (k : ℚ) (a : Vec3) : Vec3 := ⟨k * a.x, k * a.y, k * a.z⟩

/-- `m_Vec3::SquareLength`. -/
def squareLength (a : Vec3) : ℚ := a.x * a.x + a.y * a.y + a.z * a.z

/-- `m_Vec3::xy()`. -/
def xy (a : Vec3) : Vec2 := ⟨a.x, a.y⟩

instance : Add Vec3 := ⟨add⟩

instance : Sub Vec3 := ⟨sub⟩

instance : HMul ℚ Vec3 Vec3 := ⟨smul⟩

theorem add3_def (a b : Vec3) : a + b = ⟨a.x + b.x, a.y + b.y, a.z + b.z⟩ := rfl

theorem sub3_def (a b : Vec3) : a - b = ⟨a.x - b.x, a.y - b.y, a.z - b.z⟩ := rfl

theorem smul3_def (k : ℚ) (a : Vec3) : k * a = ⟨k * a.x, k * a.y, k * a.z⟩ := rfl

end Vec3

/-! ## Procedure state machine

Embedding of `ProcedureState` (declared in `map.hpp`, used throughout
`map.cpp`) and the operations that mutate it.  Times are rationals measured
in seconds (`Time::ToSeconds`). -/

/-- `ProcedureState::MovementState`. -/
inductive MovementState where
  | None
  | StartWait
  | Movement
  | BackWait
  | ReverseMovement
  deriving DecidableEq, Repr

/-- The per-procedure immutable data from `MapData::Procedure` used by the
state machine (`speed`, delays, key requirements, message numbers). -/
structure Procedure where
  speed : ℚ
  start_delay_s : ℚ
  back_wait_s : ℚ
  end_delay_s : ℚ
  red_key_required : Bool
  green_key_required : Bool
  blue_key_required : Bool
  first_message_number : Nat
  lock_message_number : Nat
  on_message_number : Nat
  deriving DecidableEq, Repr

/-- `ProcedureState` runtime state. -/
structure ProcedureState where
  locked : Bool
  first_message_printed : Bool
  movement_state : MovementState
  movement_stage : ℚ
  last_state_change_time : ℚ
  deriving DecidableEq, Repr

/-- Initial `ProcedureState` as set up by the `Map` constructor: everything
default (state `None`, stage 0) except `locked`, which is copied from the
map data. -/
def ProcedureState.initial (locked : Bool) : ProcedureState :=
  { locked := locked
    first_message_printed := false
    movement_state := MovementState.None
    movement_stage := 0
    last_state_change_time := 0 }

/-- The side effects that one procedure-pass iteration of `Map::Tick` can
emit: switch activations (`Map::ActivateProcedureSwitches`, with the
inverse-animation flag), the one-shot immediate / deactivation command
batches, and the map-end trigger. -/
structure ProcTickEvents where
  switches_forward : Bool
  switches_reverse : Bool
  immediate_commands : Bool
  deactivation_commands : Bool
  map_end : Bool
  deriving DecidableEq, Repr

def ProcTickEvents.none : ProcTickEvents :=
  ⟨false, false, false, false, false⟩

/-- One iteration of the "Update state of procedures" loop of `Map::Tick`
(map.cpp:781-857) for a single procedure.  `scale` is
`GameConstants::procedures_speed_scale` (a positive constant whose value
lives in `game_constants.hpp`, outside the sources). -/
def procTick (scale : ℚ) (procedure : Procedure) (st : ProcedureState)
    (current_time : ℚ) : ProcedureState × ProcTickEvents :=
  let time_since_last_state_change := current_time - st.last_state_change_time
  let new_stage : ℚ :=
    if 0 < procedure.speed then
      time_since_last_state_change * procedure.speed * scale
    else 1
  let map_end : Bool :=
    st.movement_state ≠ MovementState.None ∧
    0 < procedure.end_delay_s ∧
    procedure.end_delay_s ≤ time_since_last_state_change
  match st.movement_state with
  | MovementState.None => (st, { ProcTickEvents.none with map_end := map_end })
  | MovementState.StartWait =>
      if procedure.start_delay_s ≤ time_since_last_state_change then
        ({ st with
            movement_state := MovementState.Movement
            movement_stage := 0
            last_state_change_time := current_time },
         { ProcTickEvents.none with
            switches_forward := true
            immediate_commands := true
            map_end := map_end })
      else
        ({ st with movement_stage := new_stage },
         { ProcTickEvents.none with map_end := map_end })
  | MovementState.Movement =>
      if 1 ≤ new_stage then
        ({ st with
            movement_state := MovementState.BackWait
            movement_stage := 0
            last_state_change_time := current_time },
         { ProcTickEvents.none with
            deactivation_commands := true
            map_end := map_end })
      else
        ({ st with movement_stage := new_stage },
         { ProcTickEvents.none with map_end := map_end })
  | MovementState.BackWait =>
      if 0 < procedure.back_wait_s ∧
          procedure.back_wait_s ≤ time_since_last_state_change then
        ({ st with
            movement_state := MovementState.ReverseMovement
            movement_stage := 0
            last_state_change_time := current_time },
         { ProcTickEvents.none with
            switches_reverse := true
            map_end := map_end })
      else
        (st, { ProcTickEvents.none with map_end := map_end })
  | MovementState.ReverseMovement =>
      if 1 ≤ new_stage then
        ({ st with
            movement_state := MovementState.None
            movement_stage := 0
            last_state_change_time := current_time },
         { ProcTickEvents.none with map_end := map_end })
      else
        ({ st with movement_stage := new_stage },
         { ProcTickEvents.none with map_end := map_end })

/-- `Map::ActivateProcedure` (map.cpp:1530-1537). -/
def ActivateProcedure (st : ProcedureState) (current_time : ℚ) :
    ProcedureState :=
  { st with
      movement_stage := 0
      movement_state := MovementState.StartWait
      last_state_change_time := current_time }

/-- `Map::ReturnProcedure` (map.cpp:1754-1795). -/
def ReturnProcedure (scale : ℚ) (procedure : Procedure)
    (st : ProcedureState) (current_time : ℚ) : ProcedureState :=
  if st.locked then st
  else
    match st.movement_state with
    | MovementState.None => st
    | MovementState.ReverseMovement => st
    | MovementState.StartWait =>
        { st with movement_state := MovementState.None }
    | MovementState.Movement =>
        let dt_s : ℚ :=
          if 0 < procedure.speed then
            max (1 / (procedure.speed * scale) -
                  (current_time - st.last_state_change_time)) 0
          else 0
        { st with
            movement_state := MovementState.ReverseMovement
            last_state_change_time := current_time - dt_s }
    | MovementState.BackWait =>
        { st with
            movement_state := MovementState.ReverseMovement
            last_state_change_time := current_time }

/-- `Map::ProcedureProcessShoot` (map.cpp:1601-1613). -/
def ProcedureProcessShoot (st : ProcedureState) (current_time : ℚ) :
    ProcedureState :=
  if st.movement_state ≠ MovementState.None then st
  else if st.locked then st
  else ActivateProcedure st current_time

/-- `Map::ProcedureProcessDestroy` (map.cpp:1591-1599): auto-unlocks and
then activates unconditionally. -/
def ProcedureProcessDestroy (st : ProcedureState) (current_time : ℚ) :
    ProcedureState :=
  ActivateProcedure { st with locked := false } current_time

/-- The player-side key state consulted by `Map::TryActivateProcedure`. -/
structure PlayerKeys where
  have_red : Bool
  have_green : Bool
  have_blue : Bool
  deriving DecidableEq, Repr

/-- The text-message notifications `Map::TryActivateProcedure` may send
(each carries the configured message number). -/
structure ActivationMessages where
  first_message : Option Nat
  lock_message : Option Nat
  on_message : Option Nat
  deriving DecidableEq, Repr

/-- `procedure` has all its required keys satisfied by `keys`
(map.cpp:1553-1556). -/
def haveNecessaryKeys (procedure : Procedure) (keys : PlayerKeys) : Bool :=
  (!procedure.red_key_required || keys.have_red) &&
  (!procedure.green_key_required || keys.have_green) &&
  (!procedure.blue_key_required || keys.have_blue)

/-- `Map::TryActivateProcedure` (map.cpp:1539-1589).  `permitted` is the
result of the player-controller gate `player.TryActivateProcedure`. -/
def TryActivateProcedure (procedure : Procedure) (st : ProcedureState)
    (keys : PlayerKeys) (permitted : Bool) (current_time : ℚ) :
    ProcedureState × ActivationMessages :=
  if !permitted then (st, ⟨none, none, none⟩)
  else
    let have_keys := haveNecessaryKeys procedure keys
    let st1 :=
      if have_keys ∧ !st.locked ∧
          st.movement_state = MovementState.None then
        ActivateProcedure st current_time
      else st
    let first_msg : Option Nat :=
      if procedure.first_message_number ≠ 0 ∧ !st.first_message_printed then
        some procedure.first_message_number
      else none
    let st2 :=
      if procedure.first_message_number ≠ 0 ∧ !st.first_message_printed then
        { st1 with first_message_printed := true }
      else st1
    let lock_msg : Option Nat :=
      if procedure.lock_message_number ≠ 0 ∧ (st.locked ∨ ¬have_keys) then
        some procedure.lock_message_number
      else none
    let on_msg : Option Nat :=
      if procedure.on_message_number ≠ 0 then
        some procedure.on_message_number
      else none
    (st2, ⟨first_msg, lock_msg, on_msg⟩)

/-! ## Nearest-hit resolution (`Map::ProcessShot`, map.cpp:2064-2212)

The geometry primitives (`RayIntersectWall`, `RayIntersectCylinder`,
`RayIntersectXYPlane`, the collision-index ray cast, `MonsterBase::TryShot`)
live outside the sources; what `map.cpp` itself contributes is the
candidate-selection pass `process_candidate_shot_pos`, applied to the
candidate intersection points in a fixed scan order (indexed static
walls/models, then dynamic walls, then monsters, then floor/ceiling).
We embed that pass over the list of candidates in scan order. -/

/-- `Map::HitResult::ObjectType`. -/
inductive ObjectType where
  | None
  | StaticWall
  | DynamicWall
  | Model
  | Monster
  | Floor
  deriving DecidableEq, Repr

/-- `Map::HitResult`. -/
structure HitResult where
  object_type : ObjectType
  object_index : Nat
  pos : Vec3
  deriving DecidableEq, Repr

/-- Default-constructed `HitResult`: no hit. -/
def HitResult.noHit : HitResult :=
  ⟨ObjectType.None, 0, ⟨0, 0, 0⟩⟩

/-- A candidate intersection produced by one of the geometry queries inside
`Map::ProcessShot`, in scan order, tagged like `process_candidate_shot_pos`
is called. -/
structure ShotCandidate where
  pos : Vec3
  object_type : ObjectType
  object_index : Nat
  deriving DecidableEq, Repr

/-- The hit a candidate would produce if selected. -/
def ShotCandidate.toHit (c : ShotCandidate) : HitResult :=
  ⟨c.object_type, c.object_index, c.pos⟩

/-- Squared distance of a candidate from the shot start point. -/
def ShotCandidate.sqDist (start : Vec3) (c : ShotCandidate) : ℚ :=
  (c.pos - start).squareLength

/-- `process_candidate_shot_pos` (map.cpp:2073-2085): keep the candidate if
its squared distance is strictly below the current nearest. -/
def processCandidateShotPos (start : Vec3) (acc : HitResult × ℚ)
    (c : ShotCandidate) : HitResult × ℚ :=
  if c.sqDist start < acc.2 then (c.toHit, c.sqDist start) else acc

/-- `Map::ProcessShot`, as the candidate-selection fold: the nearest squared
distance starts at `max_distance * max_distance` and each candidate in scan
order replaces the current result when strictly nearer. -/
def ProcessShot (start : Vec3) (max_distance : ℚ)
    (candidates : List ShotCandidate) : HitResult :=
  (candidates.foldl (processCandidateShotPos start)
    (HitResult.noHit, max_distance * max_distance)).1

/-! ## Rockets (`Map::Shoot`, map.cpp:224-259; rocket pass of `Map::Tick`,
map.cpp:920-1137) -/

/-- The fields of `GameResources::RocketDescription` that the embedded code
reads.  `Map::Rocket::HasInfiniteSpeed` tests
`model_file_name[0] == '\0'`; we carry that test's input as the string. -/
structure RocketDescription where
  model_file_name : String
  reflect : Bool
  fast : Bool
  Auto2 : Bool
  gravity_force : ℚ
  deriving DecidableEq, Repr

/-- `Map::Rocket::HasInfiniteSpeed` (map.cpp:46-50). -/
def rocketHasInfiniteSpeed (description : RocketDescription) : Bool :=
  description.model_file_name.isEmpty

/-- `Map::Rocket` (the fields the claims need). -/
structure Rocket where
  rocket_id : Nat
  owner_id : Nat
  rocket_type_id : Nat
  start_time : ℚ
  start_point : Vec3
  normalized_direction : Vec3
  previous_position : Vec3
  speed : Vec3
  track_length : ℚ
  deriving DecidableEq, Repr

/-- Rocket-related container state mutated by `Map::Shoot`. -/
structure RocketsState where
  rockets : List Rocket
  next_rocket_id : Nat
  rockets_birth_messages : List Nat
  deriving DecidableEq, Repr

/-- The speed constant selected in `Map::Shoot` / the rocket pass:
`fast_rockets_speed` or `rockets_speed` (values live in
`game_constants.hpp`); taken as parameters. -/
structure RocketConsts where
  rockets_speed : ℚ
  fast_rockets_speed : ℚ
  rockets_gravity_scale : ℚ
  deriving DecidableEq, Repr

/-- `Map::Shoot` (map.cpp:224-259): append the rocket, emit a birth
notification only for finite-speed types, seed the velocity of reflecting
types. -/
def Shoot (consts : RocketConsts)
    (rockets_description : Nat → RocketDescription)
    (s : RocketsState) (owner_id rocket_type_id : Nat)
    (from_pos normalized_direction : Vec3) (current_time : ℚ) :
    RocketsState :=
  let description := rockets_description rocket_type_id
  let speed : Vec3 :=
    if description.reflect then
      (if description.fast then consts.fast_rockets_speed
       else consts.rockets_speed) * normalized_direction
    else ⟨0, 0, 0⟩
  let rocket : Rocket :=
    { rocket_id := s.next_rocket_id
      owner_id := owner_id
      rocket_type_id := rocket_type_id
      start_time := current_time
      start_point := from_pos
      normalized_direction := normalized_direction
      previous_position := from_pos
      speed := speed
      track_length := 0 }
  { rockets := s.rockets ++ [rocket]
    next_rocket_id := s.next_rocket_id + 1
    rockets_birth_messages :=
      if rocketHasInfiniteSpeed description then
        s.rockets_birth_messages
      else
        s.rockets_birth_messages ++ [rocket.rocket_id] }

/-- The removal condition at the end of the rocket loop of `Map::Tick`
(map.cpp:1119-1137): a rocket is removed when it registered any hit, is
older than 16 seconds, or is a hitscan ("infinite speed") type. -/
def rocketRemoved (hit : HitResult) (time_delta_s : ℚ)
    (has_infinite_speed : Bool) : Bool :=
  hit.object_type ≠ ObjectType.None ∨ 16 < time_delta_s ∨ has_infinite_speed

/-- One pass of the "Process shots" loop of `Map::Tick` over the live
rockets, reduced to its keep/remove and death-notification effects.  The
nearest-hit result of each rocket is supplied by `hit_of` (an oracle over
the world state; the removal logic does not depend on how it is computed).
The C++ loop removes by swap-with-last, which permutes order but keeps
exactly the non-removed rockets; we keep them in order.  Death messages are
emitted exactly for removed rockets that are not hitscan. -/
def processRocketsTick (rockets_description : Nat → RocketDescription)
    (hit_of : Rocket → HitResult) (current_time : ℚ) :
    List Rocket → List Rocket × List Nat
  | [] => ([], [])
  | rocket :: rest =>
      let rest_result :=
        processRocketsTick rockets_description hit_of current_time rest
      let has_infinite_speed :=
        rocketHasInfiniteSpeed (rockets_description rocket.rocket_type_id)
      let time_delta_s := current_time - rocket.start_time
      if rocketRemoved (hit_of rocket) time_delta_s has_infinite_speed then
        if has_infinite_speed then rest_result
        else (rest_result.1, rocket.rocket_id :: rest_result.2)
      else (rocket :: rest_result.1, rest_result.2)

/-- Velocity integration and ground bounce for reflecting rockets
(map.cpp:940-953): apply gravity to the vertical velocity, advance the
position, and on ground contact clamp `z` to 0 and invert the vertical
velocity upward.  `gravity_force` is
`rockets_gravity_scale * description.gravity_force`.  Returns the new
position and the new velocity; the code then re-derives
`normalized_direction` by normalizing the returned velocity. -/
def reflectRocketStep (gravity_force last_tick_delta_s : ℚ)
    (previous_position speed : Vec3) : Vec3 × Vec3 :=
  let speed1 : Vec3 := ⟨speed.x, speed.y, speed.z - gravity_force * last_tick_delta_s⟩
  let new_pos : Vec3 := previous_position + last_tick_delta_s * speed1
  if new_pos.z < 0 then
    (⟨new_pos.x, new_pos.y, 0⟩, ⟨speed1.x, speed1.y, |speed1.z|⟩)
  else (new_pos, speed1)

/-- The heading update for reflecting rockets (map.cpp:951-952):
`rocket.normalized_direction` is set to `rocket.speed` and then normalized
(`m_Vec3::Normalize`, i.e. division by the vector's length).  Following the
file's convention for `std::sqrt`, `speed_length` stands for the length of
the post-step velocity and theorems carry the hypotheses `0 < speed_length`
and `speed_length * speed_length = speed.squareLength` that characterize
it. -/
def reflectRocketDirection (speed : Vec3) (speed_length : ℚ) : Vec3 :=
  (1 / speed_length) * speed

/-- The floor-hit exemption for reflecting rockets (map.cpp:991-993): a
`Floor` hit with `object_index == 0` is turned into no hit; everything else
(including the ceiling, `object_index == 1`) passes through. -/
def reflectDiscardFloorHit (reflect : Bool) (hit : HitResult) : HitResult :=
  if reflect ∧ hit.object_type = ObjectType.Floor ∧ hit.object_index = 0 then
    { hit with object_type := ObjectType.None }
  else hit

/-! ## Mines (`Map::PlantMine`, map.cpp:261-278; mine pass of `Map::Tick`,
map.cpp:1139-1197) -/

/-- `Map::Mine`. -/
structure Mine where
  id : Nat
  pos : Vec3
  planting_time : ℚ
  deriving DecidableEq, Repr

/-- The spatial and type data of a live monster read by the mine pass:
`MonsterBase::Position` and `MonsterBase::MonsterId` (0 means player). -/
structure MineMonsterInfo where
  monster_type_id : Nat
  pos : Vec3
  deriving DecidableEq, Repr

/-- Constants the mine pass reads from `game_constants.hpp` (values outside
the sources): preparation delay, activation margin, player radius; plus the
per-type monster radii `w_radius` from `monsters_description`. -/
structure MineConsts where
  mines_preparation_time_s : ℚ
  mines_activation_radius : ℚ
  player_radius : ℚ
  w_radius : Nat → ℚ

/-- The per-monster activation test of the mine pass (map.cpp:1153-1169):
early-rejected beyond 8 units, otherwise activated when the squared 2-D
distance is strictly below `(activation_radius + monster_radius)²`. -/
def mineMonsterActivates (consts : MineConsts) (mine : Mine)
    (monster : MineMonsterInfo) : Bool :=
  let square_distance := (monster.pos.xy - mine.pos.xy).squareLength
  if 8 * 8 < square_distance then false
  else
    let monster_radius :=
      if monster.monster_type_id = 0 then consts.player_radius
      else consts.w_radius monster.monster_type_id
    let activation_distance := consts.mines_activation_radius + monster_radius
    square_distance < activation_distance * activation_distance

/-- The kill decision for one mine in one `Map::Tick` (map.cpp:1145-1184):
returns `(need_kill, activated)`. -/
def mineNeedKill (consts : MineConsts) (monsters : List MineMonsterInfo)
    (current_time : ℚ) (mine : Mine) : Bool × Bool :=
  let time_delta_s := current_time - mine.planting_time
  if 30 < time_delta_s then (true, false)
  else if consts.mines_preparation_time_s ≤ time_delta_s then
    let activated := monsters.any (mineMonsterActivates consts mine)
    (activated, activated)
  else (false, false)

/-- One mine pass of `Map::Tick`: returns the surviving mines, the
dynamic-item death messages (mine ids), and the explosion effects
(positions at which a particle effect and sound are emitted) for the
mines that activated. -/
def processMinesTick (consts : MineConsts) (monsters : List MineMonsterInfo)
    (current_time : ℚ) : List Mine → List Mine × List Nat × List Vec3
  | [] => ([], [], [])
  | mine :: rest =>
      let rest_result := processMinesTick consts monsters current_time rest
      if (mineNeedKill consts monsters current_time mine).1 then
        (rest_result.1, mine.id :: rest_result.2.1,
         if (mineNeedKill consts monsters current_time mine).2 then
           mine.pos :: rest_result.2.2
         else rest_result.2.2)
      else (mine :: rest_result.1, rest_result.2.1, rest_result.2.2)

/-- A whole sequence of mine ticks: each trace element is the tick time
together with the live monsters at that tick. -/
def runMineTicks (consts : MineConsts) :
    List (ℚ × List MineMonsterInfo) → List Mine → List Mine
  | [], mines => mines
  | (t, monsters) :: rest, mines =>
      runMineTicks consts rest (processMinesTick consts monsters t mines).1

/-! ## Monster-vs-monster collision (`Map::Tick`, map.cpp:1315-1372) -/

/-- The data of one entity read by the "Collide monsters together" pass:
`MonsterBase::MonsterId` (0 means player), position, health,
`GetZMinMax` (relative z extent) and the per-type `w_radius` from
`monsters_description`. -/
structure MonsterCol where
  monster_type_id : Nat
  pos : Vec3
  health : Int
  z_min : ℚ
  z_max : ℚ
  w_radius : ℚ
  deriving DecidableEq, Repr

/-- The weighting factor of the pair pushback (map.cpp:1358-1364):
1 when the first entity is a player and the second a monster, 0 in the
opposite orientation, 1/2 otherwise. -/
def firstMonsterK (first second : MonsterCol) : ℚ :=
  if first.monster_type_id = 0 ∧ second.monster_type_id ≠ 0 then 1
  else if first.monster_type_id ≠ 0 ∧ second.monster_type_id = 0 then 0
  else 1 / 2

/-- One ordered-pair iteration of the "Collide monsters together" pass
(map.cpp:1316-1371), returning the new 2-D positions of the two entities.
`dist` stands for `std::sqrt(square_distance)`; the normalization of
`collide_vec` is expressed through it (`collide_vec = (1/dist) * diff`).
The guards replicate the source: dead entities skipped, coarse 8-unit
cutoff, circle interpenetration test, vertical-extent overlap test. -/
def collideMonsterPair (first second : MonsterCol) (dist : ℚ) :
    Vec2 × Vec2 :=
  let no_change := (first.pos.xy, second.pos.xy)
  if first.health ≤ 0 ∨ second.health ≤ 0 then no_change
  else
    let square_distance := (first.pos.xy - second.pos.xy).squareLength
    if 8 * 8 < square_distance then no_change
    else
      let min_distance := second.w_radius + first.w_radius
      if min_distance * min_distance < square_distance then no_change
      else
        let first_z_minmax : Vec2 := ⟨first.z_min + first.pos.z, first.z_max + first.pos.z⟩
        let second_z_minmax : Vec2 := ⟨second.z_min + second.pos.z, second.z_max + second.pos.z⟩
        if first_z_minmax.y < second_z_minmax.x ∨
            second_z_minmax.y < first_z_minmax.x then no_change
        else
          let collide_vec : Vec2 := (1 / dist) * (second.pos.xy - first.pos.xy)
          let move_delta := min_distance - dist
          let k := firstMonsterK first second
          ((first.pos.xy - (move_delta * k) * collide_vec : Vec2),
           (second.pos.xy + (move_delta * (1 - k)) * collide_vec : Vec2))

/-! ## Vertical resolution of `Map::CollideWithMap` (map.cpp:325-435)

The claims about `CollideWithMap` concern only the returned z coordinate
and the `out_on_floor` flag.  The wall collisions in the function touch only
the 2-D position; the z coordinate is changed solely by the static-model
branch and by the final floor/ceiling clamp.  We embed the z/flag dynamics
exactly, over the list of static-model encounters in processing order; the
outcome of each encounter's horizontal proximity test
(`square_distance <= min_distance * min_distance` on the evolving 2-D
position) is carried as a boolean field, so the theorems quantify over
every possible outcome of those tests. -/

/-- One static-model encounter inside `Map::CollideWithMap`:
`geom_z_min`/`geom_z_max` are `model_geometry.z_min/z_max`, `pos_z` the
model's current `pos.z`, and `in_radius` the outcome of the horizontal
proximity test (and of the preceding descriptor-validity checks). -/
structure ModelZEncounter where
  geom_z_min : ℚ
  geom_z_max : ℚ
  pos_z : ℚ
  in_radius : Bool
  deriving DecidableEq, Repr

/-- The z/flag effect of one static-model encounter (map.cpp:355-391).
`pull` is `GameConstants::player_z_pull_distance`. -/
def collideModelZStep (pull height z_bottom z_top : ℚ)
    (acc : ℚ × Bool) (e : ModelZEncounter) : ℚ × Bool :=
  let model_z_min := e.geom_z_min + e.pos_z
  let model_z_max := e.geom_z_max + e.pos_z
  if z_top < model_z_min ∨ z_bottom > model_z_max then acc
  else if !e.in_radius then acc
  else if e.geom_z_max - z_bottom ≤ pull then (max acc.1 model_z_max, true)
  else if z_top - e.geom_z_min ≤ pull then (min acc.1 (model_z_min - height), acc.2)
  else acc

/-- The z coordinate and `out_on_floor` flag computed by
`Map::CollideWithMap(in_pos, height, radius)`: fold the static-model
encounters over the starting `(in_pos.z, false)`, then apply the final
floor/ceiling clamp (map.cpp:426-432) against
`GameConstants::walls_height = 2`. -/
def CollideWithMapZ (pull height in_z : ℚ)
    (encounters : List ModelZEncounter) : ℚ × Bool :=
  let z_bottom := in_z
  let z_top := in_z + height
  let r := encounters.foldl (collideModelZStep pull height z_bottom z_top)
    (in_z, false)
  if r.1 ≤ 0 then (0, true)
  else if 2 < r.1 + height then (2 - height, r.2)
  else r

/-! ## Switch models (`Map::ActivateProcedureSwitches`, map.cpp:1615-1648) -/

/-- `StaticModel::AnimationState`. -/
inductive AnimationState where
  | SingleFrame
  | Animation
  | SingleAnimation
  | SingleReverseAnimation
  deriving DecidableEq, Repr

/-- The animation fields of a switch's `StaticModel`, plus the frame count
of its model geometry (`map_data_->models[model_id].frame_count`) and
whether `model_id` is in range of the models list. -/
structure SwitchModel where
  animation_state : AnimationState
  animation_start_frame : Nat
  animation_start_time : ℚ
  frame_count : Nat
  model_id_in_range : Bool
  deriving DecidableEq, Repr

/-- The per-switch-model effect of `Map::ActivateProcedureSwitches`
(map.cpp:1628-1645): only models currently in `SingleFrame` react; with
`inverse_animation` they enter `SingleReverseAnimation` starting from the
last frame, otherwise `SingleAnimation` from frame 0. -/
def activateSwitchModel (inverse_animation : Bool) (current_time : ℚ)
    (model : SwitchModel) : SwitchModel :=
  if model.animation_state = AnimationState.SingleFrame then
    if inverse_animation then
      { model with
          animation_start_time := current_time
          animation_state := AnimationState.SingleReverseAnimation
          animation_start_frame :=
            if model.model_id_in_range then model.frame_count - 1 else 0 }
    else
      { model with
          animation_start_time := current_time
          animation_state := AnimationState.SingleAnimation
          animation_start_frame := 0 }
  else model

/-! ## Reachable procedure states

States reachable from the constructor-initialized state by any sequence of
the operations named in the spec: the procedure pass of `Map::Tick`,
`Map::TryActivateProcedure`, `Map::ReturnProcedure`,
`Map::ProcedureProcessShoot` and `Map::ProcedureProcessDestroy`, with
non-decreasing call times, plus the external `locked` toggles performed by
other procedures' `Lock`/`Unlock` commands.  The second index is the time
of the latest call. -/

inductive ProcReach (scale : ℚ) (procedure : Procedure) :
    ProcedureState → ℚ → Prop where
  | init (locked : Bool) :
      ProcReach scale procedure (ProcedureState.initial locked) 0
  | tick {st : ProcedureState} {t : ℚ} (t' : ℚ)
      (h : ProcReach scale procedure st t) (hle : t ≤ t') :
      ProcReach scale procedure (procTick scale procedure st t').1 t'
  | tryActivate {st : ProcedureState} {t : ℚ}
      (keys : PlayerKeys) (permitted : Bool) (t' : ℚ)
      (h : ProcReach scale procedure st t) (hle : t ≤ t') :
      ProcReach scale procedure
        (TryActivateProcedure procedure st keys permitted t').1 t'
  | ret {st : ProcedureState} {t : ℚ} (t' : ℚ)
      (h : ProcReach scale procedure st t) (hle : t ≤ t') :
      ProcReach scale procedure (ReturnProcedure scale procedure st t') t'
  | shoot {st : ProcedureState} {t : ℚ} (t' : ℚ)
      (h : ProcReach scale procedure st t) (hle : t ≤ t') :
      ProcReach scale procedure (ProcedureProcessShoot st t') t'
  | destroy {st : ProcedureState} {t : ℚ} (t' : ℚ)
      (h : ProcReach scale procedure st t) (hle : t ≤ t') :
      ProcReach scale procedure (ProcedureProcessDestroy st t') t'
  | setLocked {st : ProcedureState} {t : ℚ} (b : Bool)
      (h : ProcReach scale procedure st t) :
      ProcReach scale procedure { st with locked := b } t

/-- The stage/time invariant maintained by all procedure operations:
the stage is nonnegative; it is at most 1 in the `Movement`, `BackWait`
and `ReverseMovement` states (but not necessarily in `StartWait`, where it
tracks `elapsed * speed * scale` unclamped, nor in `None`, which can
inherit such a value through `ReturnProcedure`); it is exactly 0 in
`BackWait`; the last state-change time never lies in the future. -/
def ProcStageInv (st : ProcedureState) (now : ℚ) : Prop :=
  0 ≤ st.movement_stage ∧
  ((st.movement_state = MovementState.Movement ∨
    st.movement_state = MovementState.BackWait ∨
    st.movement_state = MovementState.ReverseMovement) →
      st.movement_stage ≤ 1) ∧
  (st.movement_state = MovementState.BackWait → st.movement_stage = 0) ∧
  st.last_state_change_time ≤ now

theorem procTick_stageInv {scale : ℚ} {procedure : Procedure}
    {st : ProcedureState} {t t' : ℚ} (hscale : 0 < scale)
    (h : ProcStageInv st t) (hle : t ≤ t') :
    ProcStageInv (procTick scale procedure st t').1 t' := by
  obtain ⟨h0, h1, hbw, hlast⟩ := h
  have helapsed : 0 ≤ t' - st.last_state_change_time := by linarith
  have hstage :
      0 ≤ (if 0 < procedure.speed then
        (t' - st.last_state_change_time) * procedure.speed * scale else 1) := by
    split
    · rename_i hsp
      exact mul_nonneg (mul_nonneg helapsed (le_of_lt hsp)) (le_of_lt hscale)
    · norm_num
  cases hms : st.movement_state
  · simp only [procTick, hms]
    refine ⟨h0, ?_, ?_, by linarith⟩
    · intro hc
      rw [hms] at hc
      simp at hc
    · intro hc
      rw [hms] at hc
      simp at hc
  · simp only [procTick, hms]
    by_cases hfire : procedure.start_delay_s ≤ t' - st.last_state_change_time
    · simp only [if_pos hfire]
      exact ⟨le_refl 0, by norm_num, by simp, le_refl t'⟩
    · simp only [if_neg hfire]
      refine ⟨hstage, ?_, ?_, by linarith⟩
      · intro hc
        simp at hc
      · intro hc
        simp at hc
  · simp only [procTick, hms]
    by_cases hfire : (1:ℚ) ≤ (if 0 < procedure.speed then
        (t' - st.last_state_change_time) * procedure.speed * scale else 1)
    · simp only [if_pos hfire]
      exact ⟨le_refl 0, by norm_num, by simp, le_refl t'⟩
    · simp only [if_neg hfire]
      push_neg at hfire
      refine ⟨hstage, fun _ => le_of_lt hfire, ?_, by linarith⟩
      intro hc
      simp at hc
  · simp only [procTick, hms]
    by_cases hfire : 0 < procedure.back_wait_s ∧
        procedure.back_wait_s ≤ t' - st.last_state_change_time
    · simp only [if_pos hfire]
      exact ⟨le_refl 0, by norm_num, by simp, le_refl t'⟩
    · simp only [if_neg hfire]
      exact ⟨h0, h1, hbw, by linarith⟩
  · simp only [procTick, hms]
    by_cases hfire : (1:ℚ) ≤ (if 0 < procedure.speed then
        (t' - st.last_state_change_time) * procedure.speed * scale else 1)
    · simp only [if_pos hfire]
      exact ⟨le_refl 0, by norm_num, by simp, le_refl t'⟩
    · simp only [if_neg hfire]
      push_neg at hfire
      refine ⟨hstage, fun _ => le_of_lt hfire, ?_, by linarith⟩
      intro hc
      simp at hc

theorem ReturnProcedure_stageInv {scale : ℚ} {procedure : Procedure}
    {st : ProcedureState} {t t' : ℚ}
    (h : ProcStageInv st t) (hle : t ≤ t') :
    ProcStageInv (ReturnProcedure scale procedure st t') t' := by
  obtain ⟨h0, h1, hbw, hlast⟩ := h
  have hst : ProcStageInv st t' := ⟨h0, h1, hbw, by linarith⟩
  unfold ReturnProcedure
  split
  · exact hst
  · cases hms : st.movement_state
    · exact hst
    · refine ⟨h0, ?_, ?_, by linarith⟩
      · intro hc
        simp at hc
      · intro hc
        simp at hc
    · refine ⟨h0, fun _ => h1 (Or.inl hms), ?_, ?_⟩
      · intro hc
        simp at hc
      · have hdt : (0:ℚ) ≤
            (if 0 < procedure.speed then
              max (1 / (procedure.speed * scale) -
                (t' - st.last_state_change_time)) 0 else 0) := by
          split
          · exact le_max_right _ _
          · norm_num
        show t' - _ ≤ t'
        linarith
    · refine ⟨h0, fun _ => ?_, ?_, le_refl t'⟩
      · rw [hbw hms]
        norm_num
      · intro hc
        simp at hc
    · exact hst

theorem ActivateProcedure_stageInv {st : ProcedureState} {t' : ℚ} :
    ProcStageInv (ActivateProcedure st t') t' := by
  refine ⟨le_refl 0, ?_, ?_, le_refl t'⟩
  · intro hc
    simp [ActivateProcedure] at hc
  · intro hc
    simp [ActivateProcedure] at hc

theorem TryActivateProcedure_stageInv {procedure : Procedure}
    {st : ProcedureState} {t t' : ℚ} (keys : PlayerKeys) (permitted : Bool)
    (h : ProcStageInv st t) (hle : t ≤ t') :
    ProcStageInv (TryActivateProcedure procedure st keys permitted t').1 t' := by
  obtain ⟨h0, h1, hbw, hlast⟩ := h
  have hst : ProcStageInv st t' := ⟨h0, h1, hbw, by linarith⟩
  unfold TryActivateProcedure
  split
  · exact hst
  · simp only
    have hst1 : ProcStageInv (if haveNecessaryKeys procedure keys = true ∧
        (!st.locked) = true ∧ st.movement_state = MovementState.None then
        ActivateProcedure st t' else st) t' := by
      split
      · exact ActivateProcedure_stageInv
      · exact hst
    split
    · exact hst1
    · exact hst1

theorem ProcedureProcessShoot_stageInv {st : ProcedureState} {t t' : ℚ}
    (h : ProcStageInv st t) (hle : t ≤ t') :
    ProcStageInv (ProcedureProcessShoot st t') t' := by
  obtain ⟨h0, h1, hbw, hlast⟩ := h
  have hst : ProcStageInv st t' := ⟨h0, h1, hbw, by linarith⟩
  unfold ProcedureProcessShoot
  split
  · exact hst
  · split
    · exact hst
    · exact ActivateProcedure_stageInv

theorem ProcedureProcessDestroy_stageInv {st : ProcedureState} {t' : ℚ} :
    ProcStageInv (ProcedureProcessDestroy st t') t' :=
  ActivateProcedure_stageInv

/-- The invariant holds in every reachable procedure state. -/
theorem procReach_stageInv {scale : ℚ} {procedure : Procedure}
    {st : ProcedureState} {now : ℚ} (hscale : 0 < scale)
    (h : ProcReach scale procedure st now) : ProcStageInv st now := by
  induction h with
  | init locked =>
      exact ⟨le_refl 0, by simp [ProcedureState.initial],
        by simp [ProcedureState.initial], le_refl 0⟩
  | tick t' h hle ih => exact procTick_stageInv hscale ih hle
  | tryActivate keys permitted t' h hle ih =>
      exact TryActivateProcedure_stageInv keys permitted ih hle
  | ret t' h hle ih => exact ReturnProcedure_stageInv ih hle
  | shoot t' h hle ih => exact ProcedureProcessShoot_stageInv ih hle
  | destroy t' h hle ih => exact ProcedureProcessDestroy_stageInv
  | setLocked b h ih => exact ih

/-! ## Transition edges of the procedure state machine -/

/-- The transition edges §4.3 of the spec allows, plus "no change":
activation (`None → StartWait`), the four tick edges, and the early
reversals of `ReturnProcedure` (`StartWait → None`,
`Movement → ReverseMovement`; `BackWait → ReverseMovement` is already a
tick edge). -/
def claimEdge (s s' : MovementState) : Bool :=
  s = s' ||
  (s = MovementState.None && s' = MovementState.StartWait) ||
  (s = MovementState.StartWait && s' = MovementState.Movement) ||
  (s = MovementState.Movement && s' = MovementState.BackWait) ||
  (s = MovementState.BackWait && s' = MovementState.ReverseMovement) ||
  (s = MovementState.ReverseMovement && s' = MovementState.None) ||
  (s = MovementState.StartWait && s' = MovementState.None) ||
  (s = MovementState.Movement && s' = MovementState.ReverseMovement)

/-- The edges the code actually takes: the claimed ones, plus the
unconditional restart performed by `Map::ProcedureProcessDestroy`
(any state `→ StartWait`). -/
def amendedEdge (s s' : MovementState) : Bool :=
  claimEdge s s' || s' = MovementState.StartWait

theorem procTick_edge (scale : ℚ) (procedure : Procedure)
    (st : ProcedureState) (t' : ℚ) :
    claimEdge st.movement_state
      (procTick scale procedure st t').1.movement_state = true := by
  cases hms : st.movement_state <;>
    simp only [procTick, hms] <;>
    (try split_ifs) <;>
    simp [claimEdge, hms]

theorem ReturnProcedure_edge (scale : ℚ) (procedure : Procedure)
    (st : ProcedureState) (t' : ℚ) :
    claimEdge st.movement_state
      (ReturnProcedure scale procedure st t').movement_state = true := by
  unfold ReturnProcedure
  split
  · simp [claimEdge]
  · cases hms : st.movement_state <;> simp [claimEdge, hms]

theorem ActivateProcedure_edge_from_none (st : ProcedureState) (t' : ℚ)
    (h : st.movement_state = MovementState.None) :
    claimEdge st.movement_state
      (ActivateProcedure st t').movement_state = true := by
  simp [claimEdge, h, ActivateProcedure]

theorem TryActivateProcedure_edge (procedure : Procedure)
    (st : ProcedureState) (keys : PlayerKeys) (permitted : Bool) (t' : ℚ) :
    claimEdge st.movement_state
      (TryActivateProcedure procedure st keys permitted t').1.movement_state =
      true := by
  unfold TryActivateProcedure
  split
  · simp [claimEdge]
  · simp only
    have h1 : claimEdge st.movement_state
        (if haveNecessaryKeys procedure keys = true ∧
            (!st.locked) = true ∧ st.movement_state = MovementState.None then
          ActivateProcedure st t' else st).movement_state = true := by
      split
      · rename_i hc
        exact ActivateProcedure_edge_from_none st t' hc.2.2
      · simp [claimEdge]
    split
    · exact h1
    · exact h1

theorem ProcedureProcessShoot_edge (st : ProcedureState) (t' : ℚ) :
    claimEdge st.movement_state
      (ProcedureProcessShoot st t').movement_state = true := by
  unfold ProcedureProcessShoot
  split
  · simp [claimEdge]
  · split
    · simp [claimEdge]
    · rename_i hne _
      push_neg at hne
      simp [claimEdge, hne, ActivateProcedure]

theorem ProcedureProcessDestroy_edge (st : ProcedureState) (t' : ℚ) :
    amendedEdge st.movement_state
      (ProcedureProcessDestroy st t').movement_state = true := by
  simp [amendedEdge, ProcedureProcessDestroy, ActivateProcedure]

/-- The complete transition discipline of the five procedure operations:
each call moves `movement_state` only along an allowed edge (with
`ProcedureProcessDestroy` allowed its unconditional restart edge). -/
def ProcEdgesOk (scale : ℚ) (procedure : Procedure) : Prop :=
  ∀ (st' : ProcedureState) (t' : ℚ),
    claimEdge st'.movement_state
      (procTick scale procedure st' t').1.movement_state = true ∧
    claimEdge st'.movement_state
      (ReturnProcedure scale procedure st' t').movement_state = true ∧
    (∀ (keys : PlayerKeys) (permitted : Bool),
      claimEdge st'.movement_state
        (TryActivateProcedure procedure st' keys permitted t').1.movement_state =
        true) ∧
    claimEdge st'.movement_state
      (ProcedureProcessShoot st' t').movement_state = true ∧
    amendedEdge st'.movement_state
      (ProcedureProcessDestroy st' t').movement_state = true

/-- **C2** (amended).  For every procedure and every state reachable by any
sequence of `Tick`, `TryActivateProcedure`, `ReturnProcedure`,
`ProcedureProcessShoot` and `ProcedureProcessDestroy` calls:
`movement_stage` is nonnegative, and is at most 1 whenever the state is
`Movement`, `BackWait` or `ReverseMovement` — but *not* necessarily in
`StartWait`, where the code stores the unclamped `elapsed * speed * scale`
(and `None` can inherit such a value through `ReturnProcedure`); and
`movement_state` only changes along the §4.3 edges plus the early reversals
of `ReturnProcedure` — except that `ProcedureProcessDestroy` additionally
restarts from *any* state to `StartWait`. -/
theorem procedure_stage_bounds_and_edges
    (scale : ℚ) (procedure : Procedure) (st : ProcedureState) (now : ℚ)
    (hscale : 0 < scale) (h : ProcReach scale procedure st now) :
    (0 ≤ st.movement_stage ∧
      ((st.movement_state = MovementState.Movement ∨
        st.movement_state = MovementState.BackWait ∨
        st.movement_state = MovementState.ReverseMovement) →
          st.movement_stage ≤ 1)) ∧
    ProcEdgesOk scale procedure := by
  constructor
  · have hinv := procReach_stageInv hscale h
    exact ⟨hinv.1, hinv.2.1⟩
  · intro st' t'
    exact ⟨procTick_edge scale procedure st' t',
      ReturnProcedure_edge scale procedure st' t',
      fun keys permitted =>
        TryActivateProcedure_edge procedure st' keys permitted t',
      ProcedureProcessShoot_edge st' t',
      ProcedureProcessDestroy_edge st' t'⟩

/-- **C2** counterexample.  (i) A procedure with `speed = 1` and
`start_delay = 10`, activated at time 0 and ticked at time 2 (with
speed scale 1), reaches a `StartWait` state whose `movement_stage` is 2,
outside `[0,1]`.  (ii) A `Movement` state is reachable, and
`ProcedureProcessDestroy` maps it to `StartWait` — an edge not among the
§4.3 edges plus the `ReturnProcedure` reversals. -/
theorem procedure_stage_bounds_counterexample :
    (ProcReach 1 ⟨1, 10, 0, 0, false, false, false, 0, 0, 0⟩
      ⟨false, false, MovementState.StartWait, 2, 0⟩ 2 ∧
     ¬ ((⟨false, false, MovementState.StartWait, 2, 0⟩ :
        ProcedureState).movement_stage ≤ 1)) ∧
    (ProcReach 1 ⟨1, 0, 5, 0, false, false, false, 0, 0, 0⟩
      ⟨false, false, MovementState.Movement, 0, 0⟩ 0 ∧
     (ProcedureProcessDestroy
        ⟨false, false, MovementState.Movement, 0, 0⟩ 0).movement_state =
       MovementState.StartWait ∧
     claimEdge MovementState.Movement MovementState.StartWait = false) := by
  refine ⟨⟨?_, by norm_num⟩, ⟨?_, by decide, by decide⟩⟩
  · have h0 : ProcReach 1 ⟨1, 10, 0, 0, false, false, false, 0, 0, 0⟩
        (ProcedureState.initial false) 0 := ProcReach.init false
    have h1 := ProcReach.tryActivate ⟨false, false, false⟩ true 0 h0 le_rfl
    have e1 : (TryActivateProcedure ⟨1, 10, 0, 0, false, false, false, 0, 0, 0⟩
        (ProcedureState.initial false) ⟨false, false, false⟩ true 0).1 =
        ⟨false, false, MovementState.StartWait, 0, 0⟩ := by
      norm_num [TryActivateProcedure, haveNecessaryKeys,
        ProcedureState.initial, ActivateProcedure]
    rw [e1] at h1
    have h2 := ProcReach.tick 2 h1 (by norm_num)
    have e2 : (procTick 1 ⟨1, 10, 0, 0, false, false, false, 0, 0, 0⟩
        ⟨false, false, MovementState.StartWait, 0, 0⟩ 2).1 =
        ⟨false, false, MovementState.StartWait, 2, 0⟩ := by
      norm_num [procTick]
    rwa [e2] at h2
  · have h0 : ProcReach 1 ⟨1, 0, 5, 0, false, false, false, 0, 0, 0⟩
        (ProcedureState.initial false) 0 := ProcReach.init false
    have h1 := ProcReach.tryActivate ⟨false, false, false⟩ true 0 h0 le_rfl
    have e1 : (TryActivateProcedure ⟨1, 0, 5, 0, false, false, false, 0, 0, 0⟩
        (ProcedureState.initial false) ⟨false, false, false⟩ true 0).1 =
        ⟨false, false, MovementState.StartWait, 0, 0⟩ := by
      norm_num [TryActivateProcedure, haveNecessaryKeys,
        ProcedureState.initial, ActivateProcedure]
    rw [e1] at h1
    have h2 := ProcReach.tick 0 h1 le_rfl
    have e2 : (procTick 1 ⟨1, 0, 5, 0, false, false, false, 0, 0, 0⟩
        ⟨false, false, MovementState.StartWait, 0, 0⟩ 0).1 =
        ⟨false, false, MovementState.Movement, 0, 0⟩ := by
      norm_num [procTick]
    rwa [e2] at h2

/-- **C2** witness: the amended theorem applied at speed scale 1, a concrete
procedure, and the initial (reachable) state. -/
theorem procedure_stage_bounds_and_edges_witness :
    ((0:ℚ) < 1 ∧
     ProcReach 1 ⟨1, 10, 0, 0, false, false, false, 0, 0, 0⟩
       (ProcedureState.initial false) 0) ∧
    ((0 ≤ (ProcedureState.initial false).movement_stage ∧
      (((ProcedureState.initial false).movement_state = MovementState.Movement ∨
        (ProcedureState.initial false).movement_state = MovementState.BackWait ∨
        (ProcedureState.initial false).movement_state =
          MovementState.ReverseMovement) →
          (ProcedureState.initial false).movement_stage ≤ 1)) ∧
     ProcEdgesOk 1 ⟨1, 10, 0, 0, false, false, false, 0, 0, 0⟩) :=
  ⟨⟨by norm_num, ProcReach.init false⟩,
   procedure_stage_bounds_and_edges 1 ⟨1, 10, 0, 0, false, false, false, 0, 0, 0⟩
     (ProcedureState.initial false) 0 (by norm_num) (ProcReach.init false)⟩

/-- **C3** (amended).  For a procedure in `BackWait`: when `back_wait` is
*positive* and the elapsed time since entering the state has reached it,
the next tick transitions to `ReverseMovement` (stage reset to 0) and
triggers the procedure's linked switches with reverse animation — a
`SingleFrame` switch model enters `SingleReverseAnimation` starting from
its last frame.  When `back_wait` is zero (or negative), the tick leaves
the procedure in `BackWait` unchanged and never triggers the reverse
switches, contrary to the original claim; likewise nothing happens while
the elapsed time is still below `back_wait`. -/
theorem backwait_transition_spec (scale : ℚ) (procedure : Procedure)
    (st : ProcedureState) (t : ℚ)
    (hst : st.movement_state = MovementState.BackWait) :
    (0 < procedure.back_wait_s →
      procedure.back_wait_s ≤ t - st.last_state_change_time →
      (procTick scale procedure st t).1.movement_state =
          MovementState.ReverseMovement ∧
      (procTick scale procedure st t).1.movement_stage = 0 ∧
      (procTick scale procedure st t).1.last_state_change_time = t ∧
      (procTick scale procedure st t).2.switches_reverse = true) ∧
    (procedure.back_wait_s ≤ 0 →
      (procTick scale procedure st t).1 = st ∧
      (procTick scale procedure st t).2.switches_reverse = false) ∧
    (t - st.last_state_change_time < procedure.back_wait_s →
      (procTick scale procedure st t).1 = st ∧
      (procTick scale procedure st t).2.switches_reverse = false) ∧
    (∀ (current_time : ℚ) (model : SwitchModel),
      model.animation_state = AnimationState.SingleFrame →
      model.model_id_in_range = true →
      (activateSwitchModel true current_time model).animation_state =
          AnimationState.SingleReverseAnimation ∧
      (activateSwitchModel true current_time model).animation_start_frame =
        model.frame_count - 1 ∧
      (activateSwitchModel true current_time model).animation_start_time =
        current_time) := by
  refine ⟨?_, ?_, ?_, ?_⟩
  · intro hpos helapsed
    simp only [procTick, hst, if_pos (And.intro hpos helapsed)]
    exact ⟨trivial, trivial, trivial, trivial⟩
  · intro hle
    have hneg : ¬ (0 < procedure.back_wait_s ∧
        procedure.back_wait_s ≤ t - st.last_state_change_time) := by
      rintro ⟨h1, -⟩
      linarith
    simp only [procTick, hst, if_neg hneg]
    exact ⟨trivial, rfl⟩
  · intro hlt
    have hneg : ¬ (0 < procedure.back_wait_s ∧
        procedure.back_wait_s ≤ t - st.last_state_change_time) := by
      rintro ⟨-, h2⟩
      linarith
    simp only [procTick, hst, if_neg hneg]
    exact ⟨trivial, rfl⟩
  · intro current_time model hframe hrange
    simp [activateSwitchModel, hframe, hrange]

/-- **C3** counterexample.  A procedure with `back_wait == 0` sitting in
`BackWait` since time 0: at the tick at time 5 the elapsed time (5) is ≥
`back_wait` (0), yet the state remains `BackWait` and the reverse switch
activation is not triggered — the code requires `back_wait_s > 0`. -/
theorem backwait_zero_counterexample :
    (0:ℚ) ≤ 5 - 0 ∧
    (procTick 1 ⟨1, 0, 0, 0, false, false, false, 0, 0, 0⟩
        ⟨false, false, MovementState.BackWait, 0, 0⟩ 5).1.movement_state =
      MovementState.BackWait ∧
    (procTick 1 ⟨1, 0, 0, 0, false, false, false, 0, 0, 0⟩
        ⟨false, false, MovementState.BackWait, 0, 0⟩ 5).2.switches_reverse =
      false := by
  refine ⟨by norm_num, ?_, ?_⟩ <;> norm_num [procTick, ProcTickEvents.none]

/-- **C3** witness: the amended theorem applied to a procedure with
`back_wait = 2`, in `BackWait` since time 0, ticked at time 3. -/
theorem backwait_transition_spec_witness :
    ((⟨false, false, MovementState.BackWait, 0, 0⟩ :
        ProcedureState).movement_state = MovementState.BackWait) ∧
    ((0:ℚ) < 2 → (2:ℚ) ≤ 3 - 0 →
      (procTick 1 ⟨1, 0, 2, 0, false, false, false, 0, 0, 0⟩
          ⟨false, false, MovementState.BackWait, 0, 0⟩ 3).1.movement_state =
        MovementState.ReverseMovement ∧
      (procTick 1 ⟨1, 0, 2, 0, false, false, false, 0, 0, 0⟩
          ⟨false, false, MovementState.BackWait, 0, 0⟩ 3).1.movement_stage = 0 ∧
      (procTick 1 ⟨1, 0, 2, 0, false, false, false, 0, 0, 0⟩
          ⟨false, false, MovementState.BackWait, 0, 0⟩ 3).1.last_state_change_time =
        3 ∧
      (procTick 1 ⟨1, 0, 2, 0, false, false, false, 0, 0, 0⟩
          ⟨false, false, MovementState.BackWait, 0, 0⟩ 3).2.switches_reverse =
        true) :=
  ⟨rfl,
   (backwait_transition_spec 1 ⟨1, 0, 2, 0, false, false, false, 0, 0, 0⟩
      ⟨false, false, MovementState.BackWait, 0, 0⟩ 3 rfl).1⟩

/-- **C4**.  `ReturnProcedure(p, t)` is a no-op when the procedure is locked
or its state is `None` or `ReverseMovement`; from `StartWait` it cancels to
`None`; from `BackWait` it reverses immediately (state `ReverseMovement`,
last-state-change time `t`) with `movement_stage` equal to 0 (the stage is
left untouched, and in every reachable `BackWait` state it is 0); from
`Movement` it enters `ReverseMovement` with a synthetic last-state-change
time such that the raw reverse stage evaluated at the reversal time `t`
equals `max (1 - s) 0`, where `s` is the instantaneous forward stage at
`t` — so whenever `s ≤ 1` the absolute stage `1 - reverse_stage` equals
`s`: the absolute stage is continuous at the reversal. -/
theorem ReturnProcedure_spec (scale : ℚ) (procedure : Procedure)
    (st : ProcedureState) (t now : ℚ) (hscale : 0 < scale) :
    (st.locked = true → ReturnProcedure scale procedure st t = st) ∧
    (st.movement_state = MovementState.None →
      ReturnProcedure scale procedure st t = st) ∧
    (st.movement_state = MovementState.ReverseMovement →
      ReturnProcedure scale procedure st t = st) ∧
    (st.locked = false → st.movement_state = MovementState.StartWait →
      (ReturnProcedure scale procedure st t).movement_state =
        MovementState.None) ∧
    (st.locked = false → st.movement_state = MovementState.BackWait →
      (ReturnProcedure scale procedure st t).movement_state =
          MovementState.ReverseMovement ∧
      (ReturnProcedure scale procedure st t).last_state_change_time = t ∧
      (ReturnProcedure scale procedure st t).movement_stage =
        st.movement_stage ∧
      (ProcReach scale procedure st now →
        (ReturnProcedure scale procedure st t).movement_stage = 0)) ∧
    (st.locked = false → st.movement_state = MovementState.Movement →
      0 < procedure.speed →
      (ReturnProcedure scale procedure st t).movement_state =
          MovementState.ReverseMovement ∧
      (t - (ReturnProcedure scale procedure st t).last_state_change_time) *
          procedure.speed * scale =
        max (1 - (t - st.last_state_change_time) * procedure.speed * scale)
          0 ∧
      ((t - st.last_state_change_time) * procedure.speed * scale ≤ 1 →
        1 - (t - (ReturnProcedure scale procedure st t).last_state_change_time) *
            procedure.speed * scale =
          (t - st.last_state_change_time) * procedure.speed * scale)) := by
  refine ⟨?_, ?_, ?_, ?_, ?_, ?_⟩
  · intro hl
    unfold ReturnProcedure
    rw [if_pos hl]
  · intro hms
    unfold ReturnProcedure
    split
    · rfl
    · rw [hms]
  · intro hms
    unfold ReturnProcedure
    split
    · rfl
    · rw [hms]
  · intro hl hms
    unfold ReturnProcedure
    rw [if_neg (by simp [hl]), hms]
  · intro hl hms
    have hres : ReturnProcedure scale procedure st t =
        { st with
            movement_state := MovementState.ReverseMovement
            last_state_change_time := t } := by
      unfold ReturnProcedure
      rw [if_neg (by simp [hl]), hms]
    refine ⟨by rw [hres], by rw [hres], by rw [hres], ?_⟩
    intro hreach
    rw [hres]
    show st.movement_stage = 0
    exact (procReach_stageInv hscale hreach).2.2.1 hms
  · intro hl hms hspeed
    have hres : ReturnProcedure scale procedure st t =
        { st with
            movement_state := MovementState.ReverseMovement
            last_state_change_time :=
              t - max (1 / (procedure.speed * scale) -
                    (t - st.last_state_change_time)) 0 } := by
      unfold ReturnProcedure
      rw [if_neg (by simp [hl]), hms, if_pos hspeed]
    have hss : 0 < procedure.speed * scale := mul_pos hspeed hscale
    have hkey :
        (t - (t - max (1 / (procedure.speed * scale) -
            (t - st.last_state_change_time)) 0)) *
          procedure.speed * scale =
        max (1 - (t - st.last_state_change_time) * procedure.speed * scale)
          0 := by
      have hsimp : t - (t - max (1 / (procedure.speed * scale) -
          (t - st.last_state_change_time)) 0) =
          max (1 / (procedure.speed * scale) -
            (t - st.last_state_change_time)) 0 := by ring
      rw [hsimp]
      rcases le_or_lt (1 / (procedure.speed * scale) -
          (t - st.last_state_change_time)) 0 with hle | hlt
      · rw [max_eq_right hle, max_eq_right]
        · ring
        · have h1 : 1 / (procedure.speed * scale) ≤
              t - st.last_state_change_time := by linarith
          have h2 : (1 / (procedure.speed * scale)) *
              (procedure.speed * scale) ≤
              (t - st.last_state_change_time) * (procedure.speed * scale) :=
            mul_le_mul_of_nonneg_right h1 (le_of_lt hss)
          rw [one_div_mul_cancel (ne_of_gt hss)] at h2
          linarith [h2]
      · rw [max_eq_left (le_of_lt hlt), max_eq_left]
        · field_simp
          ring
        · have h1 : t - st.last_state_change_time <
              1 / (procedure.speed * scale) := by linarith
          have h2 : (t - st.last_state_change_time) *
              (procedure.speed * scale) <
              (1 / (procedure.speed * scale)) * (procedure.speed * scale) :=
            mul_lt_mul_of_pos_right h1 hss
          rw [one_div_mul_cancel (ne_of_gt hss)] at h2
          linarith [h2]
    refine ⟨by rw [hres], ?_, ?_⟩
    · rw [hres]
      show (t - (t - max (1 / (procedure.speed * scale) -
          (t - st.last_state_change_time)) 0)) * procedure.speed * scale = _
      exact hkey
    · intro hs1
      rw [hres]
      show 1 - (t - (t - max (1 / (procedure.speed * scale) -
          (t - st.last_state_change_time)) 0)) * procedure.speed * scale = _
      rw [hkey, max_eq_left (by linarith)]
      ring

/-- **C4** witness: the theorem applied at speed scale 1 to a concrete
procedure of speed 2 and a concrete `Movement` state, reversed at time
1/4 (instantaneous stage 1/2). -/
theorem ReturnProcedure_spec_witness :
    (0:ℚ) < 1 ∧
    (((⟨false, false, MovementState.Movement, 0, 0⟩ :
        ProcedureState).locked = true →
      ReturnProcedure 1 ⟨2, 0, 0, 0, false, false, false, 0, 0, 0⟩
        ⟨false, false, MovementState.Movement, 0, 0⟩ (1/4) =
        ⟨false, false, MovementState.Movement, 0, 0⟩) ∧
    ((⟨false, false, MovementState.Movement, 0, 0⟩ :
        ProcedureState).movement_state = MovementState.None →
      ReturnProcedure 1 ⟨2, 0, 0, 0, false, false, false, 0, 0, 0⟩
        ⟨false, false, MovementState.Movement, 0, 0⟩ (1/4) =
        ⟨false, false, MovementState.Movement, 0, 0⟩) ∧
    ((⟨false, false, MovementState.Movement, 0, 0⟩ :
        ProcedureState).movement_state = MovementState.ReverseMovement →
      ReturnProcedure 1 ⟨2, 0, 0, 0, false, false, false, 0, 0, 0⟩
        ⟨false, false, MovementState.Movement, 0, 0⟩ (1/4) =
        ⟨false, false, MovementState.Movement, 0, 0⟩) ∧
    ((⟨false, false, MovementState.Movement, 0, 0⟩ :
        ProcedureState).locked = false →
      (⟨false, false, MovementState.Movement, 0, 0⟩ :
        ProcedureState).movement_state = MovementState.StartWait →
      (ReturnProcedure 1 ⟨2, 0, 0, 0, false, false, false, 0, 0, 0⟩
        ⟨false, false, MovementState.Movement, 0, 0⟩ (1/4)).movement_state =
        MovementState.None) ∧
    ((⟨false, false, MovementState.Movement, 0, 0⟩ :
        ProcedureState).locked = false →
      (⟨false, false, MovementState.Movement, 0, 0⟩ :
        ProcedureState).movement_state = MovementState.BackWait →
      (ReturnProcedure 1 ⟨2, 0, 0, 0, false, false, false, 0, 0, 0⟩
        ⟨false, false, MovementState.Movement, 0, 0⟩ (1/4)).movement_state =
          MovementState.ReverseMovement ∧
      (ReturnProcedure 1 ⟨2, 0, 0, 0, false, false, false, 0, 0, 0⟩
        ⟨false, false, MovementState.Movement, 0, 0⟩ (1/4)).last_state_change_time =
        1/4 ∧
      (ReturnProcedure 1 ⟨2, 0, 0, 0, false, false, false, 0, 0, 0⟩
        ⟨false, false, MovementState.Movement, 0, 0⟩ (1/4)).movement_stage =
        (⟨false, false, MovementState.Movement, 0, 0⟩ :
          ProcedureState).movement_stage ∧
      (ProcReach 1 ⟨2, 0, 0, 0, false, false, false, 0, 0, 0⟩
          ⟨false, false, MovementState.Movement, 0, 0⟩ 0 →
        (ReturnProcedure 1 ⟨2, 0, 0, 0, false, false, false, 0, 0, 0⟩
          ⟨false, false, MovementState.Movement, 0, 0⟩ (1/4)).movement_stage =
          0)) ∧
    ((⟨false, false, MovementState.Movement, 0, 0⟩ :
        ProcedureState).locked = false →
      (⟨false, false, MovementState.Movement, 0, 0⟩ :
        ProcedureState).movement_state = MovementState.Movement →
      0 < (⟨2, 0, 0, 0, false, false, false, 0, 0, 0⟩ : Procedure).speed →
      (ReturnProcedure 1 ⟨2, 0, 0, 0, false, false, false, 0, 0, 0⟩
        ⟨false, false, MovementState.Movement, 0, 0⟩ (1/4)).movement_state =
          MovementState.ReverseMovement ∧
      (1/4 - (ReturnProcedure 1 ⟨2, 0, 0, 0, false, false, false, 0, 0, 0⟩
          ⟨false, false, MovementState.Movement, 0, 0⟩
          (1/4)).last_state_change_time) *
          (⟨2, 0, 0, 0, false, false, false, 0, 0, 0⟩ : Procedure).speed * 1 =
        max (1 - (1/4 - (⟨false, false, MovementState.Movement, 0, 0⟩ :
            ProcedureState).last_state_change_time) *
          (⟨2, 0, 0, 0, false, false, false, 0, 0, 0⟩ : Procedure).speed * 1)
          0 ∧
      ((1/4 - (⟨false, false, MovementState.Movement, 0, 0⟩ :
          ProcedureState).last_state_change_time) *
          (⟨2, 0, 0, 0, false, false, false, 0, 0, 0⟩ : Procedure).speed * 1 ≤
          1 →
        1 - (1/4 - (ReturnProcedure 1 ⟨2, 0, 0, 0, false, false, false, 0, 0, 0⟩
            ⟨false, false, MovementState.Movement, 0, 0⟩
            (1/4)).last_state_change_time) *
          (⟨2, 0, 0, 0, false, false, false, 0, 0, 0⟩ : Procedure).speed * 1 =
          (1/4 - (⟨false, false, MovementState.Movement, 0, 0⟩ :
            ProcedureState).last_state_change_time) *
          (⟨2, 0, 0, 0, false, false, false, 0, 0, 0⟩ : Procedure).speed * 1))) :=
  ⟨by norm_num,
   ReturnProcedure_spec 1 ⟨2, 0, 0, 0, false, false, false, 0, 0, 0⟩
     ⟨false, false, MovementState.Movement, 0, 0⟩ (1/4) 0 (by norm_num)⟩

/-- The movement fields produced by a permitted `Map::TryActivateProcedure`
call: activated exactly under the key/lock/idle condition, otherwise
untouched (only the one-shot `first_message_printed` flag may change). -/
theorem TryActivateProcedure_movement_fields (procedure : Procedure)
    (st : ProcedureState) (keys : PlayerKeys) (t : ℚ) :
    (TryActivateProcedure procedure st keys true t).1.movement_state =
      (if haveNecessaryKeys procedure keys = true ∧ (!st.locked) = true ∧
          st.movement_state = MovementState.None then
        MovementState.StartWait else st.movement_state) ∧
    (TryActivateProcedure procedure st keys true t).1.movement_stage =
      (if haveNecessaryKeys procedure keys = true ∧ (!st.locked) = true ∧
          st.movement_state = MovementState.None then
        0 else st.movement_stage) ∧
    (TryActivateProcedure procedure st keys true t).1.last_state_change_time =
      (if haveNecessaryKeys procedure keys = true ∧ (!st.locked) = true ∧
          st.movement_state = MovementState.None then
        t else st.last_state_change_time) := by
  unfold TryActivateProcedure
  split_ifs <;> simp_all [ActivateProcedure] <;>
    (try (split_ifs <;> simp_all))

/-- The lock-message notification of a permitted `Map::TryActivateProcedure`
call: sent exactly when a lock message is configured and the procedure is
locked or a required key is missing. -/
theorem TryActivateProcedure_lock_message (procedure : Procedure)
    (st : ProcedureState) (keys : PlayerKeys) (t : ℚ) :
    (TryActivateProcedure procedure st keys true t).2.lock_message =
      (if procedure.lock_message_number ≠ 0 ∧
          (st.locked = true ∨ ¬ haveNecessaryKeys procedure keys = true) then
        some procedure.lock_message_number else none) := by
  unfold TryActivateProcedure
  split_ifs <;> simp_all

/-- **C8**.  A `TryActivateProcedure` attempt the player controller denies
does nothing.  A permitted attempt that lacks a required key or finds the
procedure locked leaves all movement fields unchanged (so the state stays
`None` if it was `None`) and sends the configured lock-message text
notification; the procedure is activated into `StartWait` (stage 0,
timestamped `t`) exactly when all required-key flags are satisfied, the
procedure is unlocked and its state is `None`. -/
theorem TryActivateProcedure_spec (procedure : Procedure)
    (st : ProcedureState) (keys : PlayerKeys) (t : ℚ) :
    (TryActivateProcedure procedure st keys false t = (st, ⟨none, none, none⟩)) ∧
    ((haveNecessaryKeys procedure keys = false ∨ st.locked = true) →
      (TryActivateProcedure procedure st keys true t).1.movement_state =
        st.movement_state ∧
      (TryActivateProcedure procedure st keys true t).1.movement_stage =
        st.movement_stage ∧
      (TryActivateProcedure procedure st keys true t).1.last_state_change_time =
        st.last_state_change_time ∧
      (procedure.lock_message_number ≠ 0 →
        (TryActivateProcedure procedure st keys true t).2.lock_message =
          some procedure.lock_message_number)) ∧
    ((haveNecessaryKeys procedure keys = true ∧ st.locked = false ∧
        st.movement_state = MovementState.None) →
      (TryActivateProcedure procedure st keys true t).1.movement_state =
        MovementState.StartWait ∧
      (TryActivateProcedure procedure st keys true t).1.movement_stage = 0 ∧
      (TryActivateProcedure procedure st keys true t).1.last_state_change_time =
        t) ∧
    (¬ (haveNecessaryKeys procedure keys = true ∧ st.locked = false ∧
        st.movement_state = MovementState.None) →
      (TryActivateProcedure procedure st keys true t).1.movement_state =
        st.movement_state) := by
  obtain ⟨hms, hstage, hlast⟩ :=
    TryActivateProcedure_movement_fields procedure st keys t
  have hlock := TryActivateProcedure_lock_message procedure st keys t
  refine ⟨?_, ?_, ?_, ?_⟩
  · unfold TryActivateProcedure
    simp
  · intro hdenied
    have hcond : ¬ (haveNecessaryKeys procedure keys = true ∧
        (!st.locked) = true ∧ st.movement_state = MovementState.None) := by
      rcases hdenied with h | h
      · rintro ⟨h1, -, -⟩
        rw [h] at h1
        exact Bool.false_ne_true h1
      · rintro ⟨-, h2, -⟩
        rw [h] at h2
        exact Bool.false_ne_true h2
    rw [hms, hstage, hlast, if_neg hcond, if_neg hcond, if_neg hcond]
    refine ⟨rfl, rfl, rfl, ?_⟩
    intro hnum
    rw [hlock, if_pos]
    constructor
    · exact hnum
    · rcases hdenied with h | h
      · right
        rw [h]
        exact Bool.false_ne_true
      · left
        exact h
  · rintro ⟨h1, h2, h3⟩
    have hcond : haveNecessaryKeys procedure keys = true ∧
        (!st.locked) = true ∧ st.movement_state = MovementState.None :=
      ⟨h1, by rw [h2]; rfl, h3⟩
    rw [hms, hstage, hlast, if_pos hcond, if_pos hcond, if_pos hcond]
    exact ⟨rfl, rfl, rfl⟩
  · intro hcond
    have hcond' : ¬ (haveNecessaryKeys procedure keys = true ∧
        (!st.locked) = true ∧ st.movement_state = MovementState.None) := by
      rintro ⟨h1, h2, h3⟩
      exact hcond ⟨h1, by simpa using h2, h3⟩
    rw [hms, if_neg hcond']

/-- **C8** witness: a red-key-gated procedure (lock message 7), a permitted
attempt by a keyless player on the idle initial state: the state stays
`None` and the lock message is sent; and a keyed, unlocked, idle attempt
enters `StartWait`. -/
theorem TryActivateProcedure_spec_witness :
    haveNecessaryKeys ⟨1, 0, 0, 0, true, false, false, 0, 7, 0⟩
      ⟨false, false, false⟩ = false ∧
    (TryActivateProcedure ⟨1, 0, 0, 0, true, false, false, 0, 7, 0⟩
        (ProcedureState.initial false) ⟨false, false, false⟩ true
        0).1.movement_state =
      (ProcedureState.initial false).movement_state ∧
    (TryActivateProcedure ⟨1, 0, 0, 0, true, false, false, 0, 7, 0⟩
        (ProcedureState.initial false) ⟨false, false, false⟩ true
        0).2.lock_message = some 7 ∧
    (TryActivateProcedure ⟨1, 0, 0, 0, true, false, false, 0, 7, 0⟩
        (ProcedureState.initial false) ⟨true, false, false⟩ true
        0).1.movement_state = MovementState.StartWait :=
  ⟨rfl,
   ((TryActivateProcedure_spec ⟨1, 0, 0, 0, true, false, false, 0, 7, 0⟩
       (ProcedureState.initial false) ⟨false, false, false⟩ 0).2.1
     (Or.inl rfl)).1,
   (((TryActivateProcedure_spec ⟨1, 0, 0, 0, true, false, false, 0, 7, 0⟩
       (ProcedureState.initial false) ⟨false, false, false⟩ 0).2.1
     (Or.inl rfl)).2.2.2 (by norm_num)),
   ((TryActivateProcedure_spec ⟨1, 0, 0, 0, true, false, false, 0, 7, 0⟩
       (ProcedureState.initial false) ⟨true, false, false⟩ 0).2.2.1
     ⟨rfl, rfl, rfl⟩).1⟩

/-! ## Lemmas about the `Map::ProcessShot` candidate fold -/

theorem shotFold_sq_le_init (start : Vec3) :
    ∀ (candidates : List ShotCandidate) (acc : HitResult × ℚ),
      (candidates.foldl (processCandidateShotPos start) acc).2 ≤ acc.2 := by
  intro candidates
  induction candidates with
  | nil => intro acc; exact le_refl _
  | cons c rest ih =>
      intro acc
      refine le_trans (ih (processCandidateShotPos start acc c)) ?_
      unfold processCandidateShotPos
      split
      · rename_i hlt
        exact le_of_lt hlt
      · exact le_refl _

theorem shotFold_sq_le_mem (start : Vec3) :
    ∀ (candidates : List ShotCandidate) (acc : HitResult × ℚ)
      (c : ShotCandidate), c ∈ candidates →
      (candidates.foldl (processCandidateShotPos start) acc).2 ≤
        c.sqDist start := by
  intro candidates
  induction candidates with
  | nil =>
      intro acc c hc
      exact absurd hc (List.not_mem_nil c)
  | cons c0 rest ih =>
      intro acc c hc
      rcases List.mem_cons.mp hc with heq | hmem
      · subst heq
        refine le_trans (shotFold_sq_le_init start rest _) ?_
        unfold processCandidateShotPos
        split
        · exact le_refl _
        · rename_i hnlt
          exact le_of_not_lt hnlt
      · exact ih _ c hmem

theorem shotFold_result_cases (start : Vec3) :
    ∀ (candidates : List ShotCandidate) (acc : HitResult × ℚ),
      candidates.foldl (processCandidateShotPos start) acc = acc ∨
      ((candidates.foldl (processCandidateShotPos start) acc).2 < acc.2 ∧
       ∃ c ∈ candidates,
         (candidates.foldl (processCandidateShotPos start) acc).1 = c.toHit ∧
         (candidates.foldl (processCandidateShotPos start) acc).2 =
           c.sqDist start) := by
  intro candidates
  induction candidates with
  | nil => intro acc; exact Or.inl rfl
  | cons c0 rest ih =>
      intro acc
      rcases ih (processCandidateShotPos start acc c0) with heq | ⟨hlt, c, hc, hhit, hsq⟩
      · rw [List.foldl_cons, heq]
        unfold processCandidateShotPos
        split
        · rename_i hlt0
          exact Or.inr ⟨hlt0, c0, List.mem_cons_self c0 rest, rfl, rfl⟩
        · exact Or.inl rfl
      · rw [List.foldl_cons]
        refine Or.inr ⟨?_, c, List.mem_cons_of_mem c0 hc, hhit, hsq⟩
        refine lt_of_lt_of_le hlt ?_
        unfold processCandidateShotPos
        split
        · rename_i hlt0
          exact le_of_lt hlt0
        · exact le_refl _

/-- **C5**.  `Map::ProcessShot` over the candidate intersections in scan
order: (i) when no candidate lies strictly within `max_distance`, the
result is "no hit"; (ii) when some candidate does, the result is a
candidate achieving the globally smallest distance to the start point,
tagged with its obstacle kind and index; (iii) in particular, a wall
candidate exactly `d` units along the ray with every other candidate
strictly farther is returned, at squared distance `d * d`. -/
theorem ProcessShot_nearest (start : Vec3) (max_distance : ℚ)
    (candidates : List ShotCandidate) :
    ((∀ c ∈ candidates, max_distance * max_distance ≤ c.sqDist start) →
      (ProcessShot start max_distance candidates).object_type =
        ObjectType.None) ∧
    ((∃ c ∈ candidates, c.sqDist start < max_distance * max_distance) →
      ∃ c ∈ candidates,
        ProcessShot start max_distance candidates = c.toHit ∧
        c.sqDist start < max_distance * max_distance ∧
        ∀ c2 ∈ candidates, c.sqDist start ≤ c2.sqDist start) ∧
    (∀ (w : ShotCandidate) (d : ℚ), w ∈ candidates →
      w.sqDist start = d * d →
      d * d < max_distance * max_distance →
      (∀ c2 ∈ candidates, c2 ≠ w → d * d < c2.sqDist start) →
      ProcessShot start max_distance candidates = w.toHit ∧
      ((ProcessShot start max_distance candidates).pos - start).squareLength =
        d * d) := by
  have hnear : (∃ c ∈ candidates, c.sqDist start <
      max_distance * max_distance) →
      ∃ c ∈ candidates,
        ProcessShot start max_distance candidates = c.toHit ∧
        c.sqDist start < max_distance * max_distance ∧
        ∀ c2 ∈ candidates, c.sqDist start ≤ c2.sqDist start := by
    rintro ⟨c0, hc0, hlt0⟩
    have hlow : (candidates.foldl (processCandidateShotPos start)
        (HitResult.noHit, max_distance * max_distance)).2 <
        max_distance * max_distance :=
      lt_of_le_of_lt (shotFold_sq_le_mem start candidates _ c0 hc0) hlt0
    rcases shotFold_result_cases start candidates
        (HitResult.noHit, max_distance * max_distance) with heq | ⟨_, c, hc, hhit, hsq⟩
    · rw [heq] at hlow
      exact absurd hlow (lt_irrefl _)
    · refine ⟨c, hc, hhit, ?_, ?_⟩
      · rw [← hsq]
        exact hlow
      · intro c2 hc2
        rw [← hsq]
        exact shotFold_sq_le_mem start candidates _ c2 hc2
  refine ⟨?_, hnear, ?_⟩
  · intro hfar
    rcases shotFold_result_cases start candidates
        (HitResult.noHit, max_distance * max_distance) with heq | ⟨hlt, c, hc, hhit, hsq⟩
    · show (candidates.foldl (processCandidateShotPos start)
        (HitResult.noHit, max_distance * max_distance)).1.object_type = _
      rw [heq]
      rfl
    · exact absurd (hsq ▸ hlt) (not_lt.mpr (hfar c hc))
  · intro w d hw hsqw hdlt hfarthest
    obtain ⟨c, hc, hhit, hclt, hmin⟩ :=
      hnear ⟨w, hw, by rw [hsqw]; exact hdlt⟩
    have hcw : c = w := by
      by_contra hne
      have h1 : d * d < c.sqDist start := hfarthest c hc hne
      have h2 : c.sqDist start ≤ w.sqDist start := hmin w hw
      rw [hsqw] at h2
      exact absurd (lt_of_lt_of_le h1 h2) (lt_irrefl _)
    subst hcw
    refine ⟨hhit, ?_⟩
    rw [hhit]
    show (c.pos - start).squareLength = d * d
    rw [← hsqw]
    rfl

/-- **C5** witness: the theorem applied to a concrete shot — start at the
origin, range 10, a static wall candidate at distance 3 along the x axis
and a monster candidate at distance 5: the wall is returned at squared
distance 9; and (separate input) an empty candidate list yields no hit. -/
theorem ProcessShot_nearest_witness :
    ((∀ c ∈ ([] : List ShotCandidate), (10:ℚ) * 10 ≤ c.sqDist ⟨0, 0, 0⟩) ∧
     (ProcessShot ⟨0, 0, 0⟩ 10 []).object_type = ObjectType.None) ∧
    ((⟨⟨3, 0, 0⟩, ObjectType.StaticWall, 4⟩ : ShotCandidate) ∈
        [(⟨⟨3, 0, 0⟩, ObjectType.StaticWall, 4⟩ : ShotCandidate),
         ⟨⟨5, 0, 0⟩, ObjectType.Monster, 9⟩] ∧
     (⟨⟨3, 0, 0⟩, ObjectType.StaticWall, 4⟩ : ShotCandidate).sqDist ⟨0, 0, 0⟩ =
       3 * 3 ∧
     (3:ℚ) * 3 < 10 * 10 ∧
     ProcessShot ⟨0, 0, 0⟩ 10
        [⟨⟨3, 0, 0⟩, ObjectType.StaticWall, 4⟩,
         ⟨⟨5, 0, 0⟩, ObjectType.Monster, 9⟩] =
       (⟨⟨3, 0, 0⟩, ObjectType.StaticWall, 4⟩ : ShotCandidate).toHit ∧
     ((ProcessShot ⟨0, 0, 0⟩ 10
        [⟨⟨3, 0, 0⟩, ObjectType.StaticWall, 4⟩,
         ⟨⟨5, 0, 0⟩, ObjectType.Monster, 9⟩]).pos -
        ⟨0, 0, 0⟩).squareLength = 3 * 3) := by
  constructor
  · exact ⟨fun c hc => absurd hc (List.not_mem_nil c),
      (ProcessShot_nearest ⟨0, 0, 0⟩ 10 []).1
        (fun c hc => absurd hc (List.not_mem_nil c))⟩
  · have hband := (ProcessShot_nearest ⟨0, 0, 0⟩ 10
        [⟨⟨3, 0, 0⟩, ObjectType.StaticWall, 4⟩,
         ⟨⟨5, 0, 0⟩, ObjectType.Monster, 9⟩]).2.2
      ⟨⟨3, 0, 0⟩, ObjectType.StaticWall, 4⟩ 3
      (List.mem_cons_self _ _)
      (by norm_num [ShotCandidate.sqDist, Vec3.sub3_def, Vec3.squareLength])
      (by norm_num)
      (by
        intro c2 hc2 hne
        rcases List.mem_cons.mp hc2 with h | h
        · exact absurd h hne
        · rcases List.mem_cons.mp h with h2 | h2
          · subst h2
            norm_num [ShotCandidate.sqDist, Vec3.sub3_def, Vec3.squareLength]
          · exact absurd h2 (List.not_mem_nil c2))
    exact ⟨List.mem_cons_self _ _,
      by norm_num [ShotCandidate.sqDist, Vec3.sub3_def, Vec3.squareLength],
      by norm_num, hband.1, hband.2⟩

/-- **C6**.  Hitscan rockets (infinite travel speed): `Map::Shoot` emits no
`RocketBirth` notification for them; the rocket pass of `Map::Tick`
removes every one of them unconditionally (none survives into the live
rocket set after the first tick that processes it, whatever the hit
results are); and no `RocketDeath` notification is ever emitted for them —
every emitted death id belongs to a finite-speed rocket. -/
theorem hitscan_rocket_lifecycle :
    (∀ (consts : RocketConsts) (rockets_description : Nat → RocketDescription)
       (s : RocketsState) (owner_id rocket_type_id : Nat)
       (from_pos dir : Vec3) (t : ℚ),
      rocketHasInfiniteSpeed (rockets_description rocket_type_id) = true →
      (Shoot consts rockets_description s owner_id rocket_type_id from_pos
        dir t).rockets_birth_messages = s.rockets_birth_messages) ∧
    (∀ (rockets_description : Nat → RocketDescription)
       (hit_of : Rocket → HitResult) (t : ℚ) (rockets : List Rocket)
       (r : Rocket),
      r ∈ (processRocketsTick rockets_description hit_of t rockets).1 →
      rocketHasInfiniteSpeed (rockets_description r.rocket_type_id) = false) ∧
    (∀ (rockets_description : Nat → RocketDescription)
       (hit_of : Rocket → HitResult) (t : ℚ) (rockets : List Rocket)
       (rocket_id : Nat),
      rocket_id ∈ (processRocketsTick rockets_description hit_of t rockets).2 →
      ∃ r ∈ rockets, rocket_id = r.rocket_id ∧
        rocketHasInfiniteSpeed (rockets_description r.rocket_type_id) =
          false) := by
  refine ⟨?_, ?_, ?_⟩
  · intro consts rockets_description s owner_id rocket_type_id from_pos dir t h
    simp [Shoot, h]
  · intro rockets_description hit_of t rockets
    induction rockets with
    | nil =>
        intro r hr
        exact absurd hr (List.not_mem_nil r)
    | cons rocket rest ih =>
        intro r hr
        simp only [processRocketsTick] at hr
        split at hr
        · split at hr
          · exact ih r hr
          · exact ih r hr
        · rename_i hrem
          rcases List.mem_cons.mp hr with heq | hmem
          · subst heq
            by_contra hc
            have hinf : rocketHasInfiniteSpeed
                (rockets_description r.rocket_type_id) = true := by
              rcases Bool.eq_false_or_eq_true (rocketHasInfiniteSpeed
                (rockets_description r.rocket_type_id)) with h | h
              · exact h
              · exact absurd h hc
            exact hrem (by simp [rocketRemoved, hinf])
          · exact ih r hmem
  · intro rockets_description hit_of t rockets
    induction rockets with
    | nil =>
        intro rocket_id hid
        exact absurd hid (List.not_mem_nil rocket_id)
    | cons rocket rest ih =>
        intro rocket_id hid
        simp only [processRocketsTick] at hid
        split at hid
        · split at hid
          · obtain ⟨r, hr, he, hf⟩ := ih rocket_id hid
            exact ⟨r, List.mem_cons_of_mem rocket hr, he, hf⟩
          · rename_i hninf
            rcases List.mem_cons.mp hid with heq | hmem
            · refine ⟨rocket, List.mem_cons_self rocket rest, heq, ?_⟩
              rcases Bool.eq_false_or_eq_true (rocketHasInfiniteSpeed
                  (rockets_description rocket.rocket_type_id)) with h | h
              · exact absurd h hninf
              · exact h
            · obtain ⟨r, hr, he, hf⟩ := ih rocket_id hmem
              exact ⟨r, List.mem_cons_of_mem rocket hr, he, hf⟩
        · obtain ⟨r, hr, he, hf⟩ := ih rocket_id hid
          exact ⟨r, List.mem_cons_of_mem rocket hr, he, hf⟩

/-- **C6** witness: a hitscan description (empty model file name) generates
no birth message in a concrete `Shoot`; a concrete finite-speed rocket that
survives a concrete tick is indeed not hitscan. -/
theorem hitscan_rocket_lifecycle_witness :
    rocketHasInfiniteSpeed ⟨"", false, false, false, 0⟩ = true ∧
    (Shoot ⟨1, 2, 1⟩ (fun _ => ⟨"", false, false, false, 0⟩) ⟨[], 0, []⟩ 3 0
        ⟨0, 0, 0⟩ ⟨1, 0, 0⟩ 0).rockets_birth_messages = [] ∧
    (⟨0, 3, 0, 0, ⟨0, 0, 0⟩, ⟨1, 0, 0⟩, ⟨0, 0, 0⟩, ⟨0, 0, 0⟩, 0⟩ : Rocket) ∈
      (processRocketsTick (fun _ => ⟨"m", false, false, false, 0⟩)
        (fun _ => HitResult.noHit) 0
        [⟨0, 3, 0, 0, ⟨0, 0, 0⟩, ⟨1, 0, 0⟩, ⟨0, 0, 0⟩, ⟨0, 0, 0⟩, 0⟩]).1 ∧
    rocketHasInfiniteSpeed
      ((fun _ => (⟨"m", false, false, false, 0⟩ : RocketDescription))
        (⟨0, 3, 0, 0, ⟨0, 0, 0⟩, ⟨1, 0, 0⟩, ⟨0, 0, 0⟩, ⟨0, 0, 0⟩,
          0⟩ : Rocket).rocket_type_id) = false := by
  have hmem : (⟨0, 3, 0, 0, ⟨0, 0, 0⟩, ⟨1, 0, 0⟩, ⟨0, 0, 0⟩, ⟨0, 0, 0⟩,
      0⟩ : Rocket) ∈
      (processRocketsTick (fun _ => ⟨"m", false, false, false, 0⟩)
        (fun _ => HitResult.noHit) 0
        [⟨0, 3, 0, 0, ⟨0, 0, 0⟩, ⟨1, 0, 0⟩, ⟨0, 0, 0⟩, ⟨0, 0, 0⟩, 0⟩]).1 := by
    have hstr : ("m").isEmpty = false := rfl
    norm_num [processRocketsTick, rocketRemoved, HitResult.noHit,
      rocketHasInfiniteSpeed, hstr]
  refine ⟨rfl, ?_, hmem, ?_⟩
  · exact hitscan_rocket_lifecycle.1 ⟨1, 2, 1⟩
      (fun _ => ⟨"", false, false, false, 0⟩) ⟨[], 0, []⟩ 3 0
      ⟨0, 0, 0⟩ ⟨1, 0, 0⟩ 0 rfl
  · exact hitscan_rocket_lifecycle.2.1 (fun _ => ⟨"m", false, false, false, 0⟩)
      (fun _ => HitResult.noHit) 0
      [⟨0, 3, 0, 0, ⟨0, 0, 0⟩, ⟨1, 0, 0⟩, ⟨0, 0, 0⟩, ⟨0, 0, 0⟩, 0⟩]
      ⟨0, 3, 0, 0, ⟨0, 0, 0⟩, ⟨1, 0, 0⟩, ⟨0, 0, 0⟩, ⟨0, 0, 0⟩, 0⟩ hmem

/-- Membership in the surviving-mine list of one tick: a mine survives the
tick exactly when it was present and its kill condition does not hold. -/
theorem processMinesTick_mem (consts : MineConsts)
    (monsters : List MineMonsterInfo) (t : ℚ) :
    ∀ (mines : List Mine) (mine : Mine),
      mine ∈ (processMinesTick consts monsters t mines).1 ↔
        (mine ∈ mines ∧ (mineNeedKill consts monsters t mine).1 = false) := by
  intro mines
  induction mines with
  | nil =>
      intro mine
      simp [processMinesTick]
  | cons m0 rest ih =>
      intro mine
      simp only [processMinesTick]
      split
      · rename_i hkill
        constructor
        · intro h
          have hr := (ih mine).mp h
          exact ⟨List.mem_cons_of_mem _ hr.1, hr.2⟩
        · rintro ⟨hmem, hnk⟩
          rcases List.mem_cons.mp hmem with heq | hmem2
          · subst heq
            rw [hkill] at hnk
            cases hnk
          · exact (ih mine).mpr ⟨hmem2, hnk⟩
      · rename_i hkill
        constructor
        · intro h
          rcases List.mem_cons.mp h with heq | hmem2
          · subst heq
            exact ⟨List.mem_cons_self _ _, Bool.eq_false_iff.mpr hkill⟩
          · have hr := (ih mine).mp hmem2
            exact ⟨List.mem_cons_of_mem _ hr.1, hr.2⟩
        · rintro ⟨hmem, hnk⟩
          rcases List.mem_cons.mp hmem with heq | hmem2
          · subst heq
            exact List.mem_cons_self _ _
          · exact List.mem_cons_of_mem _ ((ih mine).mpr ⟨hmem2, hnk⟩)

/-- A killed mine's id appears among the tick's dynamic-item death
messages; if it activated, its position appears among the explosion
effects. -/
theorem processMinesTick_kill (consts : MineConsts)
    (monsters : List MineMonsterInfo) (t : ℚ) :
    ∀ (mines : List Mine) (mine : Mine), mine ∈ mines →
      (mineNeedKill consts monsters t mine).1 = true →
      mine.id ∈ (processMinesTick consts monsters t mines).2.1 ∧
      ((mineNeedKill consts monsters t mine).2 = true →
        mine.pos ∈ (processMinesTick consts monsters t mines).2.2) := by
  intro mines
  induction mines with
  | nil =>
      intro mine hmem
      exact absurd hmem (List.not_mem_nil mine)
  | cons m0 rest ih =>
      intro mine hmem hkill
      rcases List.mem_cons.mp hmem with heq | hmem2
      · subst heq
        simp only [processMinesTick, hkill, if_true]
        refine ⟨List.mem_cons_self _ _, ?_⟩
        intro hact
        rw [hact]
        simp
      · have hr := ih mine hmem2 hkill
        simp only [processMinesTick]
        split
        · refine ⟨List.mem_cons_of_mem _ hr.1, ?_⟩
          intro hact
          have := hr.2 hact
          split
          · exact List.mem_cons_of_mem _ this
          · exact this
        · exact hr

/-- Presence of a mine across a sequence of ticks: the mine is live after
the whole trace exactly when it was live initially and no tick of the
trace satisfied its kill condition. -/
theorem runMineTicks_mem (consts : MineConsts) :
    ∀ (trace : List (ℚ × List MineMonsterInfo)) (mines : List Mine)
      (mine : Mine),
      mine ∈ runMineTicks consts trace mines ↔
        (mine ∈ mines ∧
         ∀ p ∈ trace, (mineNeedKill consts p.2 p.1 mine).1 = false) := by
  intro trace
  induction trace with
  | nil =>
      intro mines mine
      simp [runMineTicks]
  | cons p rest ih =>
      intro mines mine
      obtain ⟨t, monsters⟩ := p
      show mine ∈ runMineTicks consts rest
        (processMinesTick consts monsters t mines).1 ↔ _
      rw [ih, processMinesTick_mem]
      simp only [List.forall_mem_cons]
      tauto

/-- **C7**.  Mine lifecycle: (i) across any sequence of ticks, a mine is in
the live set exactly until some tick satisfies its kill condition, and it
is absent from every later state; (ii) at the killing tick the mine's
dynamic-item death message is emitted, and if it activated, the explosion
effect at its position as well; (iii) the kill condition is exactly "age
exceeds 30 seconds, or age has reached the preparation delay and some
monster activates the mine"; (iv) a monster activates the mine exactly
when its squared 2-D distance to the mine is below
`(activation margin + monster radius)²` (the 8-unit early reject never
interferes while margin + radius is at most 8). -/
theorem mine_lifecycle (consts : MineConsts) :
    (∀ (trace : List (ℚ × List MineMonsterInfo)) (mines : List Mine)
       (mine : Mine),
      mine ∈ runMineTicks consts trace mines ↔
        (mine ∈ mines ∧
         ∀ p ∈ trace, (mineNeedKill consts p.2 p.1 mine).1 = false)) ∧
    (∀ (monsters : List MineMonsterInfo) (t : ℚ) (mines : List Mine)
       (mine : Mine),
      mine ∈ mines → (mineNeedKill consts monsters t mine).1 = true →
      mine.id ∈ (processMinesTick consts monsters t mines).2.1 ∧
      ((mineNeedKill consts monsters t mine).2 = true →
        mine.pos ∈ (processMinesTick consts monsters t mines).2.2)) ∧
    (∀ (monsters : List MineMonsterInfo) (t : ℚ) (mine : Mine),
      (mineNeedKill consts monsters t mine).1 = true ↔
        (30 < t - mine.planting_time ∨
         (consts.mines_preparation_time_s ≤ t - mine.planting_time ∧
          monsters.any (mineMonsterActivates consts mine) = true))) ∧
    (∀ (mine : Mine) (monster : MineMonsterInfo),
      0 ≤ consts.mines_activation_radius +
          (if monster.monster_type_id = 0 then consts.player_radius
           else consts.w_radius monster.monster_type_id) →
      consts.mines_activation_radius +
          (if monster.monster_type_id = 0 then consts.player_radius
           else consts.w_radius monster.monster_type_id) ≤ 8 →
      (mineMonsterActivates consts mine monster = true ↔
        (monster.pos.xy - mine.pos.xy).squareLength <
          (consts.mines_activation_radius +
            (if monster.monster_type_id = 0 then consts.player_radius
             else consts.w_radius monster.monster_type_id)) *
          (consts.mines_activation_radius +
            (if monster.monster_type_id = 0 then consts.player_radius
             else consts.w_radius monster.monster_type_id)))) := by
  refine ⟨runMineTicks_mem consts, processMinesTick_kill consts, ?_, ?_⟩
  · intro monsters t mine
    simp only [mineNeedKill]
    split
    · rename_i h30
      simp [h30]
    · rename_i h30
      split
      · rename_i hprep
        simp [h30, hprep]
      · rename_i hprep
        simp [h30, hprep]
  · intro mine monster h0 h8
    simp only [mineMonsterActivates]
    by_cases hfar : 8 * 8 <
        (monster.pos.xy - mine.pos.xy).squareLength
    · rw [if_pos hfar]
      constructor
      · intro h
        cases h
      · intro h
        exfalso
        have hsq : (consts.mines_activation_radius +
            (if monster.monster_type_id = 0 then consts.player_radius
             else consts.w_radius monster.monster_type_id)) *
            (consts.mines_activation_radius +
            (if monster.monster_type_id = 0 then consts.player_radius
             else consts.w_radius monster.monster_type_id)) ≤ 8 * 8 :=
          mul_le_mul h8 h8 h0 (by norm_num)
        linarith
    · rw [if_neg hfar]
      exact decide_eq_true_iff

/-- **C7** witness: with preparation delay 5, activation margin 1/2 and
all radii 1/2 — a mine planted at time 0 survives a monster-free tick at
time 1, and at a tick at time 40 (age over 30 seconds) its kill condition
holds and its death message is emitted. -/
theorem mine_lifecycle_witness :
    ((⟨7, ⟨0, 0, 0⟩, 0⟩ : Mine) ∈
        runMineTicks ⟨5, 1/2, 1/2, fun _ => 1/2⟩
          [(1, [])] [⟨7, ⟨0, 0, 0⟩, 0⟩] ↔
      ((⟨7, ⟨0, 0, 0⟩, 0⟩ : Mine) ∈ [(⟨7, ⟨0, 0, 0⟩, 0⟩ : Mine)] ∧
       ∀ p ∈ [((1:ℚ), ([] : List MineMonsterInfo))],
         (mineNeedKill ⟨5, 1/2, 1/2, fun _ => 1/2⟩ p.2 p.1
           ⟨7, ⟨0, 0, 0⟩, 0⟩).1 = false)) ∧
    ((⟨7, ⟨0, 0, 0⟩, 0⟩ : Mine) ∈ [(⟨7, ⟨0, 0, 0⟩, 0⟩ : Mine)] ∧
     (mineNeedKill ⟨5, 1/2, 1/2, fun _ => 1/2⟩ [] 40
       ⟨7, ⟨0, 0, 0⟩, 0⟩).1 = true ∧
     (⟨7, ⟨0, 0, 0⟩, 0⟩ : Mine).id ∈
       (processMinesTick ⟨5, 1/2, 1/2, fun _ => 1/2⟩ [] 40
         [⟨7, ⟨0, 0, 0⟩, 0⟩]).2.1) := by
  have hkill : (mineNeedKill ⟨5, 1/2, 1/2, fun _ => 1/2⟩ [] 40
      ⟨7, ⟨0, 0, 0⟩, 0⟩).1 = true := by
    norm_num [mineNeedKill]
  refine ⟨(mine_lifecycle ⟨5, 1/2, 1/2, fun _ => 1/2⟩).1
      [(1, [])] [⟨7, ⟨0, 0, 0⟩, 0⟩] ⟨7, ⟨0, 0, 0⟩, 0⟩,
    List.mem_cons_self _ _, hkill,
    ((mine_lifecycle ⟨5, 1/2, 1/2, fun _ => 1/2⟩).2.1 [] 40
      [⟨7, ⟨0, 0, 0⟩, 0⟩] ⟨7, ⟨0, 0, 0⟩, 0⟩
      (List.mem_cons_self _ _) hkill).1⟩

/-- Scaling a vector back by the length it was divided by recovers it. -/
theorem vec3_scale_cancel (len : ℚ) (h : len ≠ 0) (v : Vec3) :
    len * ((1 / len) * v) = v := by
  obtain ⟨x, y, z⟩ := v
  simp only [Vec3.smul3_def, Vec3.mk.injEq]
  refine ⟨?_, ?_, ?_⟩ <;> field_simp

/-- Dividing a vector by its length yields a unit vector (squared length
1), where the length is characterized by `len * len = v.squareLength`. -/
theorem vec3_unit_of_length (len : ℚ) (h : 0 < len) (v : Vec3)
    (hlen : len * len = v.squareLength) :
    ((1 / len) * v).squareLength = 1 := by
  obtain ⟨x, y, z⟩ := v
  simp only [Vec3.smul3_def, Vec3.squareLength] at hlen ⊢
  have hne : len ≠ 0 := ne_of_gt h
  field_simp
  linarith [hlen]

/-- **C9**.  Reflecting rockets: each tick the velocity is integrated with
the type's gravity scale (horizontal components untouched, vertical
reduced by `gravity * dt`); without ground contact the position advances
by `dt * velocity`; on ground contact (`new_pos.z < 0`) the position's z
is clamped to 0 and the vertical velocity becomes its absolute value —
which, whenever the rocket started at or above the ground and `dt > 0`,
is a strict sign inversion to point upward (a bounce, not a stop).
A `Floor` hit with index 0 reported by the nearest-hit resolver is
discarded for reflecting rockets, so it is not terminal (the rocket is
then removed only by age); every other obstacle kind — including the
ceiling, which is a `Floor` hit with index 1 — passes through unchanged
and removes the rocket.  Finally, the heading is re-derived from the
velocity: the new `normalized_direction` is the post-step velocity divided
by its length (`speed_length`, characterized by
`speed_length * speed_length = |velocity|²`), so scaling it back by
`speed_length` recovers the velocity exactly and its squared length is
1. -/
theorem reflect_rocket_spec (gravity_force last_tick_delta_s : ℚ)
    (previous_position speed : Vec3) :
    ((reflectRocketStep gravity_force last_tick_delta_s previous_position
        speed).2.x = speed.x ∧
     (reflectRocketStep gravity_force last_tick_delta_s previous_position
        speed).2.y = speed.y) ∧
    (¬ (previous_position.z + last_tick_delta_s *
          (speed.z - gravity_force * last_tick_delta_s) < 0) →
      (reflectRocketStep gravity_force last_tick_delta_s previous_position
          speed).2.z = speed.z - gravity_force * last_tick_delta_s ∧
      (reflectRocketStep gravity_force last_tick_delta_s previous_position
          speed).1 = previous_position + last_tick_delta_s *
        (⟨speed.x, speed.y,
          speed.z - gravity_force * last_tick_delta_s⟩ : Vec3)) ∧
    (previous_position.z + last_tick_delta_s *
        (speed.z - gravity_force * last_tick_delta_s) < 0 →
      (reflectRocketStep gravity_force last_tick_delta_s previous_position
          speed).1.z = 0 ∧
      (reflectRocketStep gravity_force last_tick_delta_s previous_position
          speed).2.z = |speed.z - gravity_force * last_tick_delta_s| ∧
      (0 ≤ previous_position.z → 0 < last_tick_delta_s →
        speed.z - gravity_force * last_tick_delta_s < 0 ∧
        (reflectRocketStep gravity_force last_tick_delta_s previous_position
            speed).2.z =
          -(speed.z - gravity_force * last_tick_delta_s) ∧
        0 < (reflectRocketStep gravity_force last_tick_delta_s
            previous_position speed).2.z)) ∧
    (∀ hit : HitResult, hit.object_type = ObjectType.Floor →
      hit.object_index = 0 →
      (reflectDiscardFloorHit true hit).object_type = ObjectType.None ∧
      ∀ age : ℚ,
        rocketRemoved (reflectDiscardFloorHit true hit) age false =
          decide (16 < age)) ∧
    (∀ hit : HitResult,
      hit.object_type ≠ ObjectType.Floor ∨ hit.object_index ≠ 0 →
      reflectDiscardFloorHit true hit = hit ∧
      (hit.object_type ≠ ObjectType.None →
        ∀ age : ℚ,
          rocketRemoved (reflectDiscardFloorHit true hit) age false =
            true)) ∧
    (∀ speed_length : ℚ, 0 < speed_length →
      speed_length * speed_length =
        (reflectRocketStep gravity_force last_tick_delta_s
          previous_position speed).2.squareLength →
      reflectRocketDirection
          (reflectRocketStep gravity_force last_tick_delta_s
            previous_position speed).2 speed_length =
        (1 / speed_length) *
          (reflectRocketStep gravity_force last_tick_delta_s
            previous_position speed).2 ∧
      speed_length *
          reflectRocketDirection
            (reflectRocketStep gravity_force last_tick_delta_s
              previous_position speed).2 speed_length =
        (reflectRocketStep gravity_force last_tick_delta_s
          previous_position speed).2 ∧
      (reflectRocketDirection
          (reflectRocketStep gravity_force last_tick_delta_s
            previous_position speed).2 speed_length).squareLength = 1) := by
  refine ⟨?_, ?_, ?_, ?_, ?_, ?_⟩
  · simp only [reflectRocketStep, Vec3.add3_def, Vec3.smul3_def]
    split_ifs <;> exact ⟨rfl, rfl⟩
  · intro hnb
    simp only [reflectRocketStep, Vec3.add3_def, Vec3.smul3_def]
    rw [if_neg hnb]
    exact ⟨rfl, rfl⟩
  · intro hb
    simp only [reflectRocketStep, Vec3.add3_def, Vec3.smul3_def]
    rw [if_pos hb]
    refine ⟨rfl, rfl, ?_⟩
    intro hprev hdt
    have hsz : speed.z - gravity_force * last_tick_delta_s < 0 := by
      by_contra hc
      push_neg at hc
      have : 0 ≤ last_tick_delta_s *
          (speed.z - gravity_force * last_tick_delta_s) :=
        mul_nonneg (le_of_lt hdt) hc
      linarith
    refine ⟨hsz, ?_, ?_⟩
    · show |speed.z - gravity_force * last_tick_delta_s| = _
      exact abs_of_neg hsz
    · show 0 < |speed.z - gravity_force * last_tick_delta_s|
      rw [abs_of_neg hsz]
      linarith
  · intro hit htype hindex
    have hcond : reflectDiscardFloorHit true hit =
        { hit with object_type := ObjectType.None } := by
      unfold reflectDiscardFloorHit
      rw [if_pos ⟨rfl, htype, hindex⟩]
    rw [hcond]
    refine ⟨rfl, ?_⟩
    intro age
    simp [rocketRemoved]
  · intro hit hne
    have hcond : reflectDiscardFloorHit true hit = hit := by
      unfold reflectDiscardFloorHit
      rw [if_neg]
      rintro ⟨-, h1, h2⟩
      rcases hne with h | h
      · exact h h1
      · exact h h2
    rw [hcond]
    refine ⟨rfl, ?_⟩
    intro htype age
    simp [rocketRemoved, htype]
  · intro speed_length hpos hlen
    exact ⟨rfl, vec3_scale_cancel speed_length (ne_of_gt hpos) _,
      vec3_unit_of_length speed_length hpos _ hlen⟩

/-- **C9** witness: gravity 10, tick 1 s, rocket at the origin with upward
velocity 5: gravity turns the vertical velocity to −5, ground contact
clamps z to 0 and inverts the velocity to 5; a floor hit (index 0) is
discarded and only age can remove the rocket, while a ceiling hit
(`Floor`, index 1) passes through and removes it; and a second rocket
(gravity 1, start z = 10, velocity ⟨3, 0, 5⟩, post-step velocity
⟨3, 0, 4⟩ of length 5) has its heading re-derived from the velocity:
scaling the new heading by 5 recovers the velocity and the heading is a
unit vector. -/
theorem reflect_rocket_spec_witness :
    ((0:ℚ) + 1 * (5 - 10 * 1) < 0) ∧
    (reflectRocketStep 10 1 ⟨0, 0, 0⟩ ⟨1, 0, 5⟩).1.z = 0 ∧
    (reflectRocketStep 10 1 ⟨0, 0, 0⟩ ⟨1, 0, 5⟩).2.z = |(5:ℚ) - 10 * 1| ∧
    (reflectDiscardFloorHit true
      ⟨ObjectType.Floor, 0, ⟨2, 0, 0⟩⟩).object_type = ObjectType.None ∧
    rocketRemoved (reflectDiscardFloorHit true
      ⟨ObjectType.Floor, 0, ⟨2, 0, 0⟩⟩) 1 false = decide ((16:ℚ) < 1) ∧
    reflectDiscardFloorHit true ⟨ObjectType.Floor, 1, ⟨2, 0, 2⟩⟩ =
      ⟨ObjectType.Floor, 1, ⟨2, 0, 2⟩⟩ ∧
    rocketRemoved (reflectDiscardFloorHit true
      ⟨ObjectType.Floor, 1, ⟨2, 0, 2⟩⟩) 1 false = true ∧
    ((0:ℚ) < 5) ∧
    ((5:ℚ) * 5 =
      (reflectRocketStep 1 1 ⟨0, 0, 10⟩ ⟨3, 0, 5⟩).2.squareLength) ∧
    (5:ℚ) * reflectRocketDirection
        (reflectRocketStep 1 1 ⟨0, 0, 10⟩ ⟨3, 0, 5⟩).2 5 =
      (reflectRocketStep 1 1 ⟨0, 0, 10⟩ ⟨3, 0, 5⟩).2 ∧
    (reflectRocketDirection
        (reflectRocketStep 1 1 ⟨0, 0, 10⟩ ⟨3, 0, 5⟩).2 5).squareLength =
      1 := by
  have hb : (0:ℚ) + 1 * (5 - 10 * 1) < 0 := by norm_num
  have h3 := (reflect_rocket_spec 10 1 ⟨0, 0, 0⟩ ⟨1, 0, 5⟩).2.2.1 hb
  have h4 := (reflect_rocket_spec 10 1 ⟨0, 0, 0⟩ ⟨1, 0, 5⟩).2.2.2.1
    ⟨ObjectType.Floor, 0, ⟨2, 0, 0⟩⟩ rfl rfl
  have h5 := (reflect_rocket_spec 10 1 ⟨0, 0, 0⟩ ⟨1, 0, 5⟩).2.2.2.2.1
    ⟨ObjectType.Floor, 1, ⟨2, 0, 2⟩⟩ (Or.inr (by norm_num))
  have hlen : (5:ℚ) * 5 =
      (reflectRocketStep 1 1 ⟨0, 0, 10⟩ ⟨3, 0, 5⟩).2.squareLength := by
    norm_num [reflectRocketStep, Vec3.add3_def, Vec3.smul3_def,
      Vec3.squareLength]
  have h6 := (reflect_rocket_spec 1 1 ⟨0, 0, 10⟩ ⟨3, 0, 5⟩).2.2.2.2.2 5
    (by norm_num) hlen
  exact ⟨hb, h3.1, h3.2.1, h4.1, h4.2 1, h5.1, h5.2 (by simp) 1,
    by norm_num, hlen, h6.2.1, h6.2.2⟩

/-- **C10**.  For every `CollideWithMap(pos, height, radius)` call with
`0 < height < 2` (the walls height), whatever static-model encounters
occur: the returned z coordinate lies in `[0, 2 − height]`, and whenever
it is 0 the `out_on_floor` flag is true. -/
theorem CollideWithMapZ_bounds (pull height in_z : ℚ)
    (encounters : List ModelZEncounter)
    (_h0 : 0 < height) (h2 : height < 2) :
    0 ≤ (CollideWithMapZ pull height in_z encounters).1 ∧
    (CollideWithMapZ pull height in_z encounters).1 ≤ 2 - height ∧
    ((CollideWithMapZ pull height in_z encounters).1 = 0 →
      (CollideWithMapZ pull height in_z encounters).2 = true) := by
  unfold CollideWithMapZ
  simp only
  split
  · dsimp only
    exact ⟨le_refl 0, by linarith, fun _ => rfl⟩
  · rename_i hpos
    push_neg at hpos
    split
    · rename_i hclamp
      dsimp only
      refine ⟨by linarith, le_refl _, ?_⟩
      intro hzero
      linarith
    · rename_i hclamp
      push_neg at hclamp
      refine ⟨le_of_lt hpos, by linarith, ?_⟩
      intro hzero
      exfalso
      rw [hzero] at hpos
      exact lt_irrefl 0 hpos

/-- **C10** witness: the theorem applied at height 1 to a call starting at
z = 5 with one pull-up encounter (a model top at z = 3/2 within range):
the result stays within [0, 1]. -/
theorem CollideWithMapZ_bounds_witness :
    ((0:ℚ) < 1 ∧ (1:ℚ) < 2) ∧
    (0 ≤ (CollideWithMapZ (1/4) 1 5 [⟨0, 3/2, 0, true⟩]).1 ∧
     (CollideWithMapZ (1/4) 1 5 [⟨0, 3/2, 0, true⟩]).1 ≤ 2 - 1 ∧
     ((CollideWithMapZ (1/4) 1 5 [⟨0, 3/2, 0, true⟩]).1 = 0 →
       (CollideWithMapZ (1/4) 1 5 [⟨0, 3/2, 0, true⟩]).2 = true)) :=
  ⟨⟨by norm_num, by norm_num⟩,
   CollideWithMapZ_bounds (1/4) 1 5 [⟨0, 3/2, 0, true⟩]
     (by norm_num) (by norm_num)⟩

/-- **C1** (amended).  In the monster-vs-monster collision pass, for a
colliding pair of live entities whose circles interpenetrate and whose
vertical extents overlap (`dist` standing for the square root of the
squared distance): when the first entity is the player and the second a
monster, the *player* absorbs the full positional correction and the
*monster* is left unchanged (the opposite of the original claim's
asymmetry); symmetrically, with the monster first and the player second,
the monster is unchanged and the player absorbs the full correction;
when both are monsters (or both players) the correction is split evenly
between the two. -/
theorem monster_pair_collision_spec (first second : MonsterCol) (dist : ℚ)
    (h1 : 0 < first.health) (h2 : 0 < second.health)
    (hcut : (first.pos.xy - second.pos.xy).squareLength ≤ 8 * 8)
    (hpen : (first.pos.xy - second.pos.xy).squareLength ≤
      (second.w_radius + first.w_radius) * (second.w_radius + first.w_radius))
    (hz : ¬ (first.z_max + first.pos.z < second.z_min + second.pos.z ∨
             second.z_max + second.pos.z < first.z_min + first.pos.z)) :
    (first.monster_type_id = 0 → second.monster_type_id ≠ 0 →
      (collideMonsterPair first second dist).1 =
        first.pos.xy - (second.w_radius + first.w_radius - dist) *
          ((1 / dist) * (second.pos.xy - first.pos.xy)) ∧
      (collideMonsterPair first second dist).2 = second.pos.xy) ∧
    (first.monster_type_id ≠ 0 → second.monster_type_id = 0 →
      (collideMonsterPair first second dist).1 = first.pos.xy ∧
      (collideMonsterPair first second dist).2 =
        second.pos.xy + (second.w_radius + first.w_radius - dist) *
          ((1 / dist) * (second.pos.xy - first.pos.xy))) ∧
    ((first.monster_type_id = 0 ↔ second.monster_type_id = 0) →
      (collideMonsterPair first second dist).1 =
        first.pos.xy - ((second.w_radius + first.w_radius - dist) * (1/2)) *
          ((1 / dist) * (second.pos.xy - first.pos.xy)) ∧
      (collideMonsterPair first second dist).2 =
        second.pos.xy + ((second.w_radius + first.w_radius - dist) * (1/2)) *
          ((1 / dist) * (second.pos.xy - first.pos.xy))) := by
  have hcore : collideMonsterPair first second dist =
      ((first.pos.xy -
          ((second.w_radius + first.w_radius - dist) *
            firstMonsterK first second) *
          ((1 / dist) * (second.pos.xy - first.pos.xy)) : Vec2),
       (second.pos.xy +
          ((second.w_radius + first.w_radius - dist) *
            (1 - firstMonsterK first second)) *
          ((1 / dist) * (second.pos.xy - first.pos.xy)) : Vec2)) := by
    simp only [collideMonsterPair]
    rw [if_neg (by push_neg; exact ⟨h1, h2⟩)]
    rw [if_neg (not_lt.mpr hcut)]
    rw [if_neg (not_lt.mpr hpen)]
    rw [if_neg hz]
  refine ⟨?_, ?_, ?_⟩
  · intro ha hb
    have hk : firstMonsterK first second = 1 := by
      unfold firstMonsterK
      rw [if_pos ⟨ha, hb⟩]
    rw [hcore, hk]
    constructor
    · show first.pos.xy - _ * _ = _
      simp only [Vec3.xy, Vec2.sub2_def, Vec2.smul2_def, Vec2.mk.injEq]
      constructor <;> ring
    · show second.pos.xy + _ * _ = _
      simp only [Vec3.xy, Vec2.add2_def, Vec2.sub2_def, Vec2.smul2_def, Vec2.mk.injEq]
      constructor <;> ring
  · intro ha hb
    have hk : firstMonsterK first second = 0 := by
      unfold firstMonsterK
      rw [if_neg (by rintro ⟨h, -⟩; exact ha h), if_pos ⟨ha, hb⟩]
    rw [hcore, hk]
    constructor
    · show first.pos.xy - _ * _ = _
      simp only [Vec3.xy, Vec2.sub2_def, Vec2.smul2_def, Vec2.mk.injEq]
      constructor <;> ring
    · show second.pos.xy + _ * _ = _
      simp only [Vec3.xy, Vec2.add2_def, Vec2.sub2_def, Vec2.smul2_def, Vec2.mk.injEq]
      constructor <;> ring
  · intro hiff
    have hk : firstMonsterK first second = 1/2 := by
      unfold firstMonsterK
      rw [if_neg (by rintro ⟨ha, hb⟩; exact hb (hiff.mp ha)),
        if_neg (by rintro ⟨ha, hb⟩; exact ha (hiff.mpr hb))]
    rw [hcore, hk]
    refine ⟨rfl, ?_⟩
    show second.pos.xy + _ * _ = _
    simp only [Vec3.xy, Vec2.add2_def, Vec2.sub2_def, Vec2.smul2_def,
      Vec2.mk.injEq]
    constructor <;> ring

/-- **C1** counterexample.  A live player (type id 0) at the origin and a
live monster (type id 5) at distance 1, both of radius 3/5 (so their
circles interpenetrate: 1 ≤ (6/5)²) with overlapping vertical extents:
the collision pass leaves the *monster* exactly where it was and moves the
*player* — the original claim says the monster absorbs the full correction
and the player's position is left unchanged. -/
theorem monster_pair_collision_counterexample :
    (0 < (⟨0, ⟨0, 0, 0⟩, 100, 0, 1, 3/5⟩ : MonsterCol).health ∧
     0 < (⟨5, ⟨1, 0, 0⟩, 100, 0, 1, 3/5⟩ : MonsterCol).health) ∧
    (⟨0, ⟨0, 0, 0⟩, 100, 0, 1, 3/5⟩ : MonsterCol).monster_type_id = 0 ∧
    (⟨5, ⟨1, 0, 0⟩, 100, 0, 1, 3/5⟩ : MonsterCol).monster_type_id ≠ 0 ∧
    (1:ℚ) * 1 =
      ((⟨0, ⟨0, 0, 0⟩, 100, 0, 1, 3/5⟩ : MonsterCol).pos.xy -
       (⟨5, ⟨1, 0, 0⟩, 100, 0, 1, 3/5⟩ : MonsterCol).pos.xy).squareLength ∧
    ((⟨0, ⟨0, 0, 0⟩, 100, 0, 1, 3/5⟩ : MonsterCol).pos.xy -
       (⟨5, ⟨1, 0, 0⟩, 100, 0, 1, 3/5⟩ : MonsterCol).pos.xy).squareLength ≤
      ((⟨5, ⟨1, 0, 0⟩, 100, 0, 1, 3/5⟩ : MonsterCol).w_radius +
        (⟨0, ⟨0, 0, 0⟩, 100, 0, 1, 3/5⟩ : MonsterCol).w_radius) *
      ((⟨5, ⟨1, 0, 0⟩, 100, 0, 1, 3/5⟩ : MonsterCol).w_radius +
        (⟨0, ⟨0, 0, 0⟩, 100, 0, 1, 3/5⟩ : MonsterCol).w_radius) ∧
    (collideMonsterPair ⟨0, ⟨0, 0, 0⟩, 100, 0, 1, 3/5⟩
        ⟨5, ⟨1, 0, 0⟩, 100, 0, 1, 3/5⟩ 1).2 =
      (⟨5, ⟨1, 0, 0⟩, 100, 0, 1, 3/5⟩ : MonsterCol).pos.xy ∧
    (collideMonsterPair ⟨0, ⟨0, 0, 0⟩, 100, 0, 1, 3/5⟩
        ⟨5, ⟨1, 0, 0⟩, 100, 0, 1, 3/5⟩ 1).1 ≠
      (⟨0, ⟨0, 0, 0⟩, 100, 0, 1, 3/5⟩ : MonsterCol).pos.xy := by
  refine ⟨⟨by norm_num, by norm_num⟩, rfl, by norm_num, ?_, ?_, ?_, ?_⟩ <;>
    norm_num [collideMonsterPair, firstMonsterK, Vec3.xy, Vec2.sub2_def,
      Vec2.add2_def, Vec2.smul2_def, Vec2.squareLength, Vec2.mk.injEq]

/-- **C1** witness: the amended theorem applied to the same live
interpenetrating player/monster pair, with `dist = 1` the exact square
root of the squared distance. -/
theorem monster_pair_collision_spec_witness :
    ((0 < (⟨0, ⟨0, 0, 0⟩, 100, 0, 1, 3/5⟩ : MonsterCol).health ∧
      0 < (⟨5, ⟨1, 0, 0⟩, 100, 0, 1, 3/5⟩ : MonsterCol).health) ∧
     ((⟨0, ⟨0, 0, 0⟩, 100, 0, 1, 3/5⟩ : MonsterCol).pos.xy -
       (⟨5, ⟨1, 0, 0⟩, 100, 0, 1, 3/5⟩ : MonsterCol).pos.xy).squareLength ≤
       8 * 8) ∧
    (collideMonsterPair ⟨0, ⟨0, 0, 0⟩, 100, 0, 1, 3/5⟩
        ⟨5, ⟨1, 0, 0⟩, 100, 0, 1, 3/5⟩ 1).1 =
      (⟨0, ⟨0, 0, 0⟩, 100, 0, 1, 3/5⟩ : MonsterCol).pos.xy -
        ((⟨5, ⟨1, 0, 0⟩, 100, 0, 1, 3/5⟩ : MonsterCol).w_radius +
          (⟨0, ⟨0, 0, 0⟩, 100, 0, 1, 3/5⟩ : MonsterCol).w_radius - 1) *
        (((1:ℚ) / 1) *
          ((⟨5, ⟨1, 0, 0⟩, 100, 0, 1, 3/5⟩ : MonsterCol).pos.xy -
           (⟨0, ⟨0, 0, 0⟩, 100, 0, 1, 3/5⟩ : MonsterCol).pos.xy)) ∧
    (collideMonsterPair ⟨0, ⟨0, 0, 0⟩, 100, 0, 1, 3/5⟩
        ⟨5, ⟨1, 0, 0⟩, 100, 0, 1, 3/5⟩ 1).2 =
      (⟨5, ⟨1, 0, 0⟩, 100, 0, 1, 3/5⟩ : MonsterCol).pos.xy := by
  have h := (monster_pair_collision_spec
      ⟨0, ⟨0, 0, 0⟩, 100, 0, 1, 3/5⟩ ⟨5, ⟨1, 0, 0⟩, 100, 0, 1, 3/5⟩ 1
      (by norm_num) (by norm_num)
      (by norm_num [Vec3.xy, Vec2.sub2_def, Vec2.squareLength])
      (by norm_num [Vec3.xy, Vec2.sub2_def, Vec2.squareLength])
      (by norm_num)).1 rfl (by norm_num)
  exact ⟨⟨⟨by norm_num, by norm_num⟩,
    by norm_num [Vec3.xy, Vec2.sub2_def, Vec2.squareLength]⟩, h.1, h.2⟩
